import Mathlib

/-!
# RInside sandboxed server: controller and worker sessions

A shallow embedding of the command/reply protocol of
`inst/examples/sandboxed_server`:

* `common/binarystream.h`   : `BinaryStream`, arithmetic `read<T>` / `write`
* `client/rinsideclient.cpp`: `RInsideClient` (the controller session)
* `server/rinsideserver.cpp`: `RInsideServer::run` (the worker session)

Bytes are natural numbers below 256.  C++ member functions that mutate the
object and may throw become functions from the state to an `Outcome`: the
value returned or the failure thrown, together with the state left behind.
-/

namespace RInside

/-! ## Failures and outcomes -/

/-- The exceptions that travel through the protocol code. -/
inductive Failure where
  /-- The class `BinaryStream::stream_exception`: a channel read or write failed. -/
  | stream_exception
  /-- A `std::runtime_error` carrying the bytes of its `what()` text. -/
  | runtime_error (what : List Nat)
  /-- A `std::out_of_range` (as thrown by `std::map::at` for a missing key), again
  with its `what()` text. -/
  | out_of_range (what : List Nat)
  /-- Any other exception, e.g. one thrown by user code inside a callback. -/
  | other (code : Nat)
  deriving DecidableEq, Repr

/-- The bytes of a C string literal (the literals of this program are ASCII). -/
def what (text : String) : List Nat := text.toList.map Char.toNat

instance instDecidableEqExcept {ε α : Type} [DecidableEq ε] [DecidableEq α] :
    DecidableEq (Except ε α)
  | .ok a, .ok b =>
    if h : a = b then isTrue (by rw [h]) else isFalse (fun h2 => h (by cases h2; rfl))
  | .error a, .error b =>
    if h : a = b then isTrue (by rw [h]) else isFalse (fun h2 => h (by cases h2; rfl))
  | .ok _, .error _ => isFalse (fun h2 => by cases h2)
  | .error _, .ok _ => isFalse (fun h2 => by cases h2)

/-- The result of running a member function from some state: what it returned
or threw, and the state of the object afterwards. -/
structure Outcome (σ α : Type) where
  result : Except Failure α
  state : σ
  deriving DecidableEq, Repr

/-! ## Fixed-width integers in their binary representation -/

/-- The `w` bytes of the binary representation of `v`, least significant first
(`stream.write((const char *) &t, sizeof(T))` on a little-endian host). -/
def encodeLE : Nat → Nat → List Nat
  | 0, _ => []
  | w + 1, v => v % 256 :: encodeLE w (v / 256)

/-- The unsigned value whose binary representation is the given bytes. -/
def decodeLE : List Nat → Nat
  | [] => 0
  | b :: bs => b + 256 * decodeLE bs

/-- The bit pattern of an `int32_t` / `int`, as an unsigned 32-bit number. -/
def int32_bits (i : Int) : Nat := (i % 2 ^ 32).toNat

/-- The `int32_t` with a given 32-bit pattern (two's complement). -/
def int32_of_bits (n : Nat) : Int :=
  if n % 2 ^ 32 < 2 ^ 31 then ((n % 2 ^ 32 : Nat) : Int) else ((n % 2 ^ 32 : Nat) : Int) - 2 ^ 32

/-- Width of `size_t` in bytes (an LP64 host). -/
def sizeof_size_t : Nat := 8

/-! ## The byte channel -/

/-- Modelled from the spec: `binarystream.cpp` is not part of the sources, so the
two primitives `write(const char *, size_t)` and `read(char *, size_t)` follow
the spec's Byte Channel: a reliable, ordered byte stream with blocking
read-exact / write-exact semantics that signals disconnection as a
distinguished failure.

* `pending`: the bytes the peer delivers that have not been read yet;
* `written`: every byte written so far, oldest first;
* `wroom`  : how many more bytes the peer accepts before the channel disconnects;
* `wcalls` : how many times the write primitive has been called (bookkeeping
  that makes an attempted write visible even when it fails);
* `failed` : whether a read or write primitive has failed so far (bookkeeping). -/
structure BinaryStream where
  pending : List Nat
  written : List Nat
  wroom : Nat
  wcalls : Nat
  failed : Bool
  deriving DecidableEq, Repr

namespace BinaryStream

/-- Modelled from the spec: the primitive `void write(const char *buffer, size_t len)`
of the missing `binarystream.cpp`.  Write-exact: all of the buffer is written, or
the channel fails with a `stream_exception` and accepts nothing from then on. -/
def write (st : BinaryStream) (buffer : List Nat) : Outcome BinaryStream Unit :=
  if buffer.length ≤ st.wroom then
    ⟨.ok (), { st with written := st.written ++ buffer,
                       wroom := st.wroom - buffer.length,
                       wcalls := st.wcalls + 1 }⟩
  else
    ⟨.error .stream_exception, { st with wroom := 0, wcalls := st.wcalls + 1, failed := true }⟩

/-- Modelled from the spec: the primitive `size_t read(char *buffer, size_t len)` of
the missing `binarystream.cpp`.  Read-exact: exactly `len` bytes are taken from
the channel, or the end of the stream is hit and the read fails with a
`stream_exception`. -/
def read (st : BinaryStream) (len : Nat) : Outcome BinaryStream (List Nat) :=
  if len ≤ st.pending.length then
    ⟨.ok (st.pending.take len), { st with pending := st.pending.drop len }⟩
  else
    ⟨.error .stream_exception, { st with pending := [], failed := true }⟩

/-- Arithmetic `stream_write_helper`: `stream.write((const char *) &t, sizeof(T))`,
for an unsigned bit pattern `v` of a type of `w` bytes. -/
def write_arith (st : BinaryStream) (w v : Nat) : Outcome BinaryStream Unit :=
  st.write (encodeLE w v)

/-- Arithmetic `stream_read_helper`: `T value; stream.read(&value); return value;`,
giving the unsigned bit pattern of a type of `w` bytes. -/
def read_arith (st : BinaryStream) (w : Nat) : Outcome BinaryStream Nat :=
  match st.read w with
  | ⟨.ok bytes, st1⟩ => ⟨.ok (decodeLE bytes), st1⟩
  | ⟨.error e, st1⟩ => ⟨.error e, st1⟩

/-- The call `stream.write(c)` for a `char`. -/
def write_char (st : BinaryStream) (c : Nat) : Outcome BinaryStream Unit :=
  st.write_arith 1 c

/-- The call `stream.read<char>()`. -/
def read_char (st : BinaryStream) : Outcome BinaryStream Nat :=
  st.read_arith 1

/-- The call `stream.write(v)` for a `uint32_t`. -/
def write_uint32 (st : BinaryStream) (v : Nat) : Outcome BinaryStream Unit :=
  st.write_arith 4 v

/-- The call `stream.read<uint32_t>()`. -/
def read_uint32 (st : BinaryStream) : Outcome BinaryStream Nat :=
  st.read_arith 4

/-- The call `stream.write(v)` for an `int32_t` / `int`. -/
def write_int32 (st : BinaryStream) (v : Int) : Outcome BinaryStream Unit :=
  st.write_arith 4 (int32_bits v)

/-- The call `stream.read<int32_t>()` / `stream.read<int>()`. -/
def read_int32 (st : BinaryStream) : Outcome BinaryStream Int :=
  match st.read_arith 4 with
  | ⟨.ok bits, st1⟩ => ⟨.ok (int32_of_bits bits), st1⟩
  | ⟨.error e, st1⟩ => ⟨.error e, st1⟩

/-- The call `stream.write(v)` for a `size_t`. -/
def write_size_t (st : BinaryStream) (v : Nat) : Outcome BinaryStream Unit :=
  st.write_arith sizeof_size_t v

/-- The call `stream.read<size_t>()`. -/
def read_size_t (st : BinaryStream) : Outcome BinaryStream Nat :=
  st.read_arith sizeof_size_t

/-- The wire form of a `std::string`: its length as a `size_t`, then its bytes. -/
def string_bytes (s : List Nat) : List Nat :=
  encodeLE sizeof_size_t s.length ++ s

/-- Modelled from the spec: `serializer<std::string>::serialize` is only declared
in `binarystream.h`; per the spec strings are length-prefixed (a count of the
platform's size type) followed by the raw bytes, no terminator. -/
def write_string (st : BinaryStream) (s : List Nat) : Outcome BinaryStream Unit :=
  match st.write_size_t s.length with
  | ⟨.ok _, st1⟩ => st1.write s
  | ⟨.error e, st1⟩ => ⟨.error e, st1⟩

/-- Modelled from the spec: `serializer<std::string>::deserialize` is only declared
in `binarystream.h`; it reads the `size_t` length and then that many raw bytes. -/
def read_string (st : BinaryStream) : Outcome BinaryStream (List Nat) :=
  match st.read_size_t with
  | ⟨.ok len, st1⟩ => st1.read len
  | ⟨.error e, st1⟩ => ⟨.error e, st1⟩

end BinaryStream

/-! ## Protocol constants -/

/-- The constants of `common/constants.h`, which is not part of the sources: the
magic number (an `int`) and the one-byte command and reply tags.  They are a
parameter of everything below. -/
structure Constants where
  RIS_MAGIC_NUMBER : Int
  RIS_CMD_EXIT : Nat
  RIS_CMD_SETVALUE : Nat
  RIS_CMD_GETVALUE : Nat
  RIS_CMD_SETCALLBACK : Nat
  RIS_CMD_RUN : Nat
  RIS_CMD_GETCONSOLE : Nat
  RIS_CMD_INITPLOT : Nat
  RIS_CMD_GETPLOT : Nat
  RIS_REPLY_CALLBACK : Nat
  RIS_REPLY_OK : Nat
  RIS_REPLY_VALUE : Nat
  RIS_REPLY_ERROR : Nat
  deriving DecidableEq, Repr

/-- The four reply tags are four different values. -/
def Constants.replyTagsDistinct (K : Constants) : Prop :=
  [K.RIS_REPLY_CALLBACK, K.RIS_REPLY_OK, K.RIS_REPLY_VALUE, K.RIS_REPLY_ERROR].Nodup

instance (K : Constants) : Decidable K.replyTagsDistinct := by
  unfold Constants.replyTagsDistinct; infer_instance

/-- The eight command tags, in the order in which `RInsideServer::run` tests them. -/
def Constants.commandTags (K : Constants) : List Nat :=
  [K.RIS_CMD_EXIT, K.RIS_CMD_SETVALUE, K.RIS_CMD_GETVALUE, K.RIS_CMD_SETCALLBACK,
    K.RIS_CMD_RUN, K.RIS_CMD_GETCONSOLE, K.RIS_CMD_INITPLOT, K.RIS_CMD_GETPLOT]

/-- The eight command tags are eight different values. -/
def Constants.commandTagsDistinct (K : Constants) : Prop :=
  K.commandTags.Nodup

instance (K : Constants) : Decidable K.commandTagsDistinct := by
  unfold Constants.commandTagsDistinct; infer_instance

/-- A concrete choice of constants, used to evaluate the code on examples (the
values are illustrative: any constants with distinct tags behave alike). -/
def K0 : Constants where
  RIS_MAGIC_NUMBER := 0x52490001
  RIS_CMD_EXIT := 1
  RIS_CMD_SETVALUE := 2
  RIS_CMD_GETVALUE := 3
  RIS_CMD_SETCALLBACK := 4
  RIS_CMD_RUN := 5
  RIS_CMD_GETCONSOLE := 6
  RIS_CMD_INITPLOT := 7
  RIS_CMD_GETPLOT := 8
  RIS_REPLY_CALLBACK := 10
  RIS_REPLY_OK := 11
  RIS_REPLY_VALUE := 12
  RIS_REPLY_ERROR := 13

/-! ## The controller session (`rinsideclient.cpp`) -/

/-- Modelled from the spec: what one run of a callback handler does to the channel.
Per the spec a handler decodes the nested arguments, invokes the local function
and encodes its result, or fails: it consumes a number of pending bytes, writes
some bytes with some number of write calls, and may throw. -/
structure HandlerRun where
  nread : Nat
  wrote : List Nat
  wcalls : Nat
  failure : Option Failure
  deriving DecidableEq, Repr

/-- An entry of the member `std::map<uint32_t, std::function<void()>> callbacks`.
The header that declares and fills the map is not part of the sources; a handler
is bound to the stream, which is all it can see, and it can only consume bytes
that are pending and append bytes to what has been written. -/
abbrev Handler := BinaryStream → HandlerRun

/-- The call `func()` of a handler on the stream. -/
def BinaryStream.call (st : BinaryStream) (func : Handler) : Outcome BinaryStream Unit :=
  let r := func st
  let st1 : BinaryStream :=
    { pending := st.pending.drop r.nread,
      written := st.written ++ r.wrote,
      wroom := st.wroom - r.wrote.length,
      wcalls := st.wcalls + r.wcalls,
      failed := st.failed }
  match r.failure with
  | none => ⟨.ok (), st1⟩
  | some e => ⟨.error e, st1⟩

/-- The members of `RInsideClient`.  The map `callbacks` is never changed by the
functions below and is passed to them as a parameter.  The field `invoked` is
bookkeeping: the ids of the handlers called so far, oldest first. -/
structure RInsideClient where
  stream : BinaryStream
  next_callback_id : Nat
  had_unrecoverable_error : Bool
  can_send_command : Bool
  invoked : List Nat
  deriving DecidableEq, Repr

/-- The constructor `RInsideClient::RInsideClient(BinaryStream &stream)`: the new
session, or the exception of the write (then no session comes into being),
together with the stream afterwards. -/
def RInsideClient.create (K : Constants) (stream : BinaryStream) :
    Outcome BinaryStream RInsideClient :=
  match stream.write_int32 K.RIS_MAGIC_NUMBER with
  | ⟨.error e, st⟩ => ⟨.error e, st⟩
  | ⟨.ok _, st⟩ =>
    ⟨.ok { stream := st, next_callback_id := 1, had_unrecoverable_error := false,
           can_send_command := true, invoked := [] }, st⟩

/-- The member `RInsideClient::unrecoverable_error`. -/
def unrecoverable_error {α : Type} (error : List Nat) (s : RInsideClient) :
    Outcome RInsideClient α :=
  ⟨.error (.runtime_error error), { s with had_unrecoverable_error := true }⟩

/-- The member `RInsideClient::writeCommand`. -/
def writeCommand (command : Nat) (s : RInsideClient) : Outcome RInsideClient Unit :=
  if s.had_unrecoverable_error then
    ⟨.error (.runtime_error
      (what "RInsideClient cannot continue due to previous unrecoverable errors")), s⟩
  else if !s.can_send_command then
    ⟨.error (.runtime_error (what "RInsideClient cannot send a command at this time")), s⟩
  else
    match s.stream.write_char command with
    | ⟨.error e, st⟩ => ⟨.error e, { s with stream := st }⟩
    | ⟨.ok _, st⟩ => ⟨.ok (), { s with stream := st, can_send_command := false }⟩

/-- The member `RInsideClient::readReply`. -/
def readReply (K : Constants) (accept_ok accept_value : Bool) (s : RInsideClient) :
    Outcome RInsideClient Nat :=
  match s.stream.read_char with
  | ⟨.error e, st⟩ => ⟨.error e, { s with stream := st }⟩
  | ⟨.ok reply, st⟩ =>
    let s1 := { s with stream := st }
    if reply = K.RIS_REPLY_ERROR then
      match s1.stream.read_string with
      | ⟨.error e, st2⟩ => ⟨.error e, { s1 with stream := st2 }⟩
      | ⟨.ok error, st2⟩ =>
        ⟨.error (.runtime_error (what "Error in R Server: " ++ error)),
          { s1 with stream := st2, can_send_command := true }⟩
    else if reply = K.RIS_REPLY_OK ∧ accept_ok = false then
      unrecoverable_error (what "Got unexpected reply from the R server") s1
    else if reply = K.RIS_REPLY_VALUE ∧ accept_value = false then
      unrecoverable_error (what "Got unexpected reply from the R server") s1
    else
      ⟨.ok reply, s1⟩

/-- The reply loop `while (true) { ... }` of `RInsideClient::runScript`.  Every
turn reads at least one byte, so a number of turns above the number of pending
bytes is never used up; `none` stands for running out of turns. -/
def runScript_loop (K : Constants) (callbacks : Nat → Option Handler) (result_typeid : Int) :
    Nat → RInsideClient → Option (Outcome RInsideClient Unit)
  | 0, _ => none
  | fuel + 1, s =>
    match s.stream.read_char with
    | ⟨.error e, st⟩ => some ⟨.error e, { s with stream := st }⟩
    | ⟨.ok reply, st⟩ =>
      let s1 := { s with stream := st }
      if reply = K.RIS_REPLY_CALLBACK then
        match s1.stream.read_uint32 with
        | ⟨.error e, st2⟩ => some ⟨.error e, { s1 with stream := st2 }⟩
        | ⟨.ok callback_id, st2⟩ =>
          let s2 := { s1 with stream := st2 }
          match callbacks callback_id with
          | none => some ⟨.error (.out_of_range (what "map::at")), s2⟩
          | some func =>
            match s2.stream.call func with
            | ⟨.error e, st3⟩ =>
              some ⟨.error e, { s2 with stream := st3, invoked := s2.invoked ++ [callback_id],
                                        had_unrecoverable_error := true }⟩
            | ⟨.ok _, st3⟩ =>
              runScript_loop K callbacks result_typeid fuel
                { s2 with stream := st3, invoked := s2.invoked ++ [callback_id] }
      else if reply = K.RIS_REPLY_OK then
        if result_typeid ≠ 0 then
          some (unrecoverable_error
            (what "runScript() did not return a value when one was requested") s1)
        else
          some ⟨.ok (), s1⟩
      else if reply = K.RIS_REPLY_VALUE then
        if result_typeid = 0 then
          some (unrecoverable_error
            (what "runScript() did return a value when none was requested") s1)
        else
          match s1.stream.read_int32 with
          | ⟨.error e, st2⟩ => some ⟨.error e, { s1 with stream := st2 }⟩
          | ⟨.ok type, st2⟩ =>
            let s2 := { s1 with stream := st2 }
            if type ≠ result_typeid then
              some (unrecoverable_error
                (what "runScript() did return a value of the wrong type") s2)
            else
              some ⟨.ok (), s2⟩
      else
        runScript_loop K callbacks result_typeid fuel s1

/-- The member `RInsideClient::runScript(code, result_typeid)`.  The reply loop gets
one turn more than there are pending bytes, which it cannot use up
(`runScript_total`). -/
def runScript (K : Constants) (callbacks : Nat → Option Handler) (code : List Nat)
    (result_typeid : Int) (s : RInsideClient) : Option (Outcome RInsideClient Unit) :=
  match writeCommand K.RIS_CMD_RUN s with
  | ⟨.error e, s1⟩ => some ⟨.error e, s1⟩
  | ⟨.ok _, s1⟩ =>
    match s1.stream.write_string code with
    | ⟨.error e, st2⟩ => some ⟨.error e, { s1 with stream := st2 }⟩
    | ⟨.ok _, st2⟩ =>
      match st2.write_int32 result_typeid with
      | ⟨.error e, st3⟩ => some ⟨.error e, { s1 with stream := st3 }⟩
      | ⟨.ok _, st3⟩ =>
        runScript_loop K callbacks result_typeid (st3.pending.length + 1)
          { s1 with stream := st3 }

/-- The member `RInsideClient::getConsoleOutput`. -/
def getConsoleOutput (K : Constants) (s : RInsideClient) : Outcome RInsideClient (List Nat) :=
  match writeCommand K.RIS_CMD_GETCONSOLE s with
  | ⟨.error e, s1⟩ => ⟨.error e, s1⟩
  | ⟨.ok _, s1⟩ =>
    match readReply K false true s1 with
    | ⟨.error e, s2⟩ => ⟨.error e, s2⟩
    | ⟨.ok _, s2⟩ =>
      match s2.stream.read_string with
      | ⟨.error e, st3⟩ => ⟨.error e, { s2 with stream := st3 }⟩
      | ⟨.ok result, st3⟩ => ⟨.ok result, { s2 with stream := st3, can_send_command := true }⟩

/-- The member `RInsideClient::getPlot`. -/
def getPlot (K : Constants) (s : RInsideClient) : Outcome RInsideClient (List Nat) :=
  match writeCommand K.RIS_CMD_GETPLOT s with
  | ⟨.error e, s1⟩ => ⟨.error e, s1⟩
  | ⟨.ok _, s1⟩ =>
    match readReply K false true s1 with
    | ⟨.error e, s2⟩ => ⟨.error e, s2⟩
    | ⟨.ok _, s2⟩ =>
      match s2.stream.read_string with
      | ⟨.error e, st3⟩ => ⟨.error e, { s2 with stream := st3 }⟩
      | ⟨.ok result, st3⟩ => ⟨.ok result, { s2 with stream := st3, can_send_command := true }⟩

/-- The common shape of `getConsoleOutput` and `getPlot`, which differ in the
command tag only (used to reason about both at once). -/
def getString (K : Constants) (tag : Nat) (s : RInsideClient) :
    Outcome RInsideClient (List Nat) :=
  match writeCommand tag s with
  | ⟨.error e, s1⟩ => ⟨.error e, s1⟩
  | ⟨.ok _, s1⟩ =>
    match readReply K false true s1 with
    | ⟨.error e, s2⟩ => ⟨.error e, s2⟩
    | ⟨.ok _, s2⟩ =>
      match s2.stream.read_string with
      | ⟨.error e, st3⟩ => ⟨.error e, { s2 with stream := st3 }⟩
      | ⟨.ok result, st3⟩ => ⟨.ok result, { s2 with stream := st3, can_send_command := true }⟩

/-- The member `RInsideClient::initPlot(width, height)`. -/
def initPlot (K : Constants) (width height : Nat) (s : RInsideClient) :
    Outcome RInsideClient Unit :=
  match writeCommand K.RIS_CMD_INITPLOT s with
  | ⟨.error e, s1⟩ => ⟨.error e, s1⟩
  | ⟨.ok _, s1⟩ =>
    match s1.stream.write_uint32 width with
    | ⟨.error e, st2⟩ => ⟨.error e, { s1 with stream := st2 }⟩
    | ⟨.ok _, st2⟩ =>
      match st2.write_uint32 height with
      | ⟨.error e, st3⟩ => ⟨.error e, { s1 with stream := st3 }⟩
      | ⟨.ok _, st3⟩ =>
        match readReply K true false { s1 with stream := st3 } with
        | ⟨.error e, s4⟩ => ⟨.error e, s4⟩
        | ⟨.ok _, s4⟩ => ⟨.ok (), { s4 with can_send_command := true }⟩

/-- The destructor `RInsideClient::~RInsideClient`: the stream it leaves behind.
The `try { ... } catch (...) { }` swallows whatever the write throws. -/
def RInsideClient.destroy (K : Constants) (s : RInsideClient) : Outcome BinaryStream Unit :=
  if s.had_unrecoverable_error = false ∧ s.can_send_command = true then
    match s.stream.write_char K.RIS_CMD_EXIT with
    | ⟨.ok _, st⟩ => ⟨.ok (), st⟩
    | ⟨.error _, st⟩ => ⟨.ok (), st⟩
  else
    ⟨.ok (), s.stream⟩

/-! ## The worker session (`rinsideserver.cpp`, `internalfunction_clone.h`) -/

/-- The text a `catch (const std::exception &e)` handler obtains from `e.what()`,
for the failures that such a handler catches. -/
def Failure.std_what : Failure → Option (List Nat)
  | .stream_exception => none
  | .runtime_error text => some text
  | .out_of_range text => some text
  | .other _ => none

/-- The calls the worker makes into the execution engine and its collaborators
(console capture, file system), and the calls the engine makes back into an
installed callback stub.  The worker records them in the order they happen. -/
inductive EngineCall where
  | assign (name : List Nat)
  | lookup (name : List Nat)
  | internalFunction (callback_id : Nat) (types : List Int)
  | parseEvalQ (line : List Nat)
  | parseEval (line : List Nat)
  | getConsoleOutput
  | resetConsoleOutput
  | read_file (filename : List Nat)
  | remove (filename : List Nat)
  | callback (callback_id : Nat)
  deriving DecidableEq, Repr

/-- The members of `RInsideServer`.  `R` is the state of the execution engine
(the references `RInside &R` and `RInsideCallbacks &Rcallbacks` and the files
they create); `calls` is bookkeeping, see `EngineCall`. -/
structure RInsideServer (E : Type) where
  stream : BinaryStream
  can_send_reply : Bool
  R : E
  calls : List EngineCall
  deriving DecidableEq, Repr

/-- Modelled from the spec: an evaluation by the execution engine (`RInside`, not
part of the sources), seen from the worker.  It either ends with a value or a
failure and a new engine state, or it calls an installed callback stub
(`CppFunctionForRInsideServer::operator()`) with an argument array and resumes
with what the stub returned or raised; this is the reentrant path of the spec. -/
inductive Eval (E V α : Type) where
  | done (result : Except Failure α) (R : E) : Eval E V α
  | invoke (callback_id : Nat) (types : List Int) (args : Nat → V)
      (resume : Except Failure V → Eval E V α) : Eval E V α

/-- The collaborators of the worker that are not part of the sources: the two
static registries (filled by `registerType`, which is declared in the missing
`rinsideserver.h`), the execution engine `RInside`, the console capture
`RInsideCallbacks`, `Rcpp::as<std::string>` and the file system. -/
structure Env (E V : Type) where
  registry_sexp_from_stream : Int → Option (BinaryStream → Outcome BinaryStream V)
  registry_sexp_to_stream :
    Int → Option (V → Bool → RInsideServer E → Outcome (RInsideServer E) Unit)
  assign : List Nat → V → E → Outcome E Unit
  lookup : List Nat → E → Outcome E V
  internalFunction : Nat → List Int → E → Outcome E V
  parseEvalQ : List Nat → E → Eval E V Unit
  parseEval : List Nat → E → Eval E V V
  getConsoleOutput : E → List Nat
  resetConsoleOutput : E → E
  as_string : V → Except Failure (List Nat)
  file_contents : List Nat → E → Option (List Nat)
  remove : List Nat → E → E

section Worker

variable {E V : Type}

/-- Appends an entry to the record of engine calls. -/
def RInsideServer.record (s : RInsideServer E) (c : EngineCall) : RInsideServer E :=
  { s with calls := s.calls ++ [c] }

/-- Modelled from the spec: `sendReply` is defined in the missing `rinsideserver.h`.
Per the spec a may-send flag enforces that the worker writes a reply tag only
while a command is waiting for its answer, and exactly one byte-sized reply tag
precedes a reply's payload: the call fails with a contract error when the flag
is down, and otherwise writes the tag and lowers the flag. -/
def sendReply (reply : Nat) (s : RInsideServer E) : Outcome (RInsideServer E) Unit :=
  if s.can_send_reply = false then
    ⟨.error (.runtime_error (what "RInsideServer cannot send a reply at this time")), s⟩
  else
    match s.stream.write_char reply with
    | ⟨.error e, st⟩ => ⟨.error e, { s with stream := st }⟩
    | ⟨.ok _, st⟩ => ⟨.ok (), { s with stream := st, can_send_reply := false }⟩

/-- Modelled from the spec: `allowSendReply` is defined in the missing
`rinsideserver.h`; it raises the may-send flag. -/
def allowSendReply (s : RInsideServer E) : RInsideServer E :=
  { s with can_send_reply := true }

/-- The member `RInsideServer::sexp_from_stream`. -/
def sexp_from_stream (env : Env E V) (s : RInsideServer E) : Outcome (RInsideServer E) V :=
  match s.stream.read_int32 with
  | ⟨.error e, st⟩ => ⟨.error e, { s with stream := st }⟩
  | ⟨.ok type, st⟩ =>
    match env.registry_sexp_from_stream type with
    | none =>
      ⟨.error (.runtime_error (what "Unknown datatype in sexp_from_stream")),
        { s with stream := st }⟩
    | some decode =>
      match decode st with
      | ⟨r, st1⟩ => ⟨r, { s with stream := st1 }⟩

/-- The member `RInsideServer::sexp_to_stream`. -/
def sexp_to_stream (env : Env E V) (sexp : V) (type : Int) (include_reply : Bool)
    (s : RInsideServer E) : Outcome (RInsideServer E) Unit :=
  match env.registry_sexp_to_stream type with
  | none => ⟨.error (.runtime_error (what "Unknown datatype in sexp_to_stream")), s⟩
  | some encode => encode sexp include_reply s

/-- The value of `size_t paramcount = types.size() - 1;` in unsigned 64-bit
arithmetic. -/
def paramcount (types : List Int) : Nat :=
  (types.length + 2 ^ 64 - 1) % 2 ^ 64

/-- The loop `for (size_t i=0;i<paramcount;i++) server.sexp_to_stream(args[i],
types[i+1], false);` of the callback stub, from index `i` with `remaining`
turns to go.  (An index past the end of `types` is undefined behaviour in C++;
here it reads 0.) -/
def sendArguments (env : Env E V) (types : List Int) (args : Nat → V) :
    Nat → Nat → RInsideServer E → Outcome (RInsideServer E) Unit
  | _, 0, s => ⟨.ok (), s⟩
  | i, remaining + 1, s =>
    match sexp_to_stream env (args i) (types.getD (i + 1) 0) false s with
    | ⟨.error e, s1⟩ => ⟨.error e, s1⟩
    | ⟨.ok _, s1⟩ => sendArguments env types args (i + 1) remaining s1

/-- The body of `CppFunctionForRInsideServer::operator()` between `BEGIN_RCPP` and
`END_RCPP`: what it returns, or the exception that `END_RCPP` hands to the
engine as an error. -/
def CppFunctionForRInsideServer.call (K : Constants) (env : Env E V) (callback_id : Nat)
    (types : List Int) (args : Nat → V) (s : RInsideServer E) :
    Outcome (RInsideServer E) V :=
  match sendReply K.RIS_REPLY_CALLBACK s with
  | ⟨.error e, s1⟩ => ⟨.error e, s1⟩
  | ⟨.ok _, s1⟩ =>
    match s1.stream.write_uint32 callback_id with
    | ⟨.error e, st2⟩ => ⟨.error e, { s1 with stream := st2 }⟩
    | ⟨.ok _, st2⟩ =>
      match sendArguments env types args 0 (paramcount types) { s1 with stream := st2 } with
      | ⟨.error e, s3⟩ => ⟨.error e, s3⟩
      | ⟨.ok _, s3⟩ =>
        match sexp_from_stream env s3 with
        | ⟨.error e, s4⟩ => ⟨.error e, s4⟩
        | ⟨.ok result, s4⟩ => ⟨.ok result, allowSendReply s4⟩

/-- Runs an evaluation of the engine on the worker: every call of a callback stub
runs `CppFunctionForRInsideServer::operator()` on the worker's own stream. -/
def runEval {α : Type} (K : Constants) (env : Env E V) :
    Eval E V α → RInsideServer E → Outcome (RInsideServer E) α
  | .done result R, s => ⟨result, { s with R := R }⟩
  | .invoke callback_id types args resume, s =>
    runEval K env
      (resume (CppFunctionForRInsideServer.call K env callback_id types args
        (s.record (.callback callback_id))).result)
      (CppFunctionForRInsideServer.call K env callback_id types args
        (s.record (.callback callback_id))).state

/-- The call `R.parseEvalQ(line)`. -/
def parseEvalQ (K : Constants) (env : Env E V) (line : List Nat) (s : RInsideServer E) :
    Outcome (RInsideServer E) Unit :=
  runEval K env (env.parseEvalQ line s.R) (s.record (.parseEvalQ line))

/-- The call `R.parseEval(line)`. -/
def parseEval (K : Constants) (env : Env E V) (line : List Nat) (s : RInsideServer E) :
    Outcome (RInsideServer E) V :=
  runEval K env (env.parseEval line s.R) (s.record (.parseEval line))

/-- The macros `CMD_TRY` ... `CMD_CATCH`, applied to the outcome of the block they
enclose: a `stream_exception` (and anything that is not a `std::exception`) is
rethrown; any other `std::exception` is answered with
`sendReply(RIS_REPLY_ERROR); stream.write(s);`. -/
def CMD_CATCH (K : Constants) (block : Outcome (RInsideServer E) Unit) :
    Outcome (RInsideServer E) Unit :=
  match block with
  | ⟨.ok _, s1⟩ => ⟨.ok (), s1⟩
  | ⟨.error e, s1⟩ =>
    match e.std_what with
    | none => ⟨.error e, s1⟩
    | some text =>
      match sendReply K.RIS_REPLY_ERROR s1 with
      | ⟨.error e2, s2⟩ => ⟨.error e2, s2⟩
      | ⟨.ok _, s2⟩ =>
        match s2.stream.write_string text with
        | ⟨.error e3, st3⟩ => ⟨.error e3, { s2 with stream := st3 }⟩
        | ⟨.ok _, st3⟩ => ⟨.ok (), { s2 with stream := st3 }⟩

end Worker

/-! ### The two helper functions of `rinsideserver.cpp` -/

/-- The index `std::string::find` looks for, scanning `tail`, the part of the
string that starts at index `i`. -/
def find_from (search : List Nat) : List Nat → Nat → Option Nat
  | [], i => if search = [] then some i else none
  | c :: cs, i => if search <+: c :: cs then some i else find_from search cs (i + 1)

/-- The call `str.find(search, pos)`; `none` is `std::string::npos`. -/
def find (str search : List Nat) (pos : Nat) : Option Nat :=
  if pos ≤ str.length then find_from search (str.drop pos) pos else none

/-- The loop of `replace_all`, with the number of turns it may still take; `none`
stands for running out of turns. -/
def replace_all_loop (search replace : List Nat) : Nat → List Nat → Nat → Option (List Nat)
  | 0, _, _ => none
  | fuel + 1, str, start_pos =>
    match find str search start_pos with
    | none => some str
    | some found =>
      replace_all_loop search replace fuel
        (str.take found ++ replace ++ str.drop (found + search.length))
        (found + replace.length)

/-- The helper `replace_all(str, search, replace)`: the string it leaves in `str`.
A replacement that is shorter than what it replaces shortens the string every
turn, so `str.length + 1` turns are enough for it. -/
def replace_all (str search replace : List Nat) : Option (List Nat) :=
  replace_all_loop search replace (str.length + 1) str 0

section Worker

variable {E V : Type}

/-- The helper `read_file_as_string(filename)`. -/
def read_file_as_string (env : Env E V) (filename : List Nat) (s : RInsideServer E) :
    Outcome (RInsideServer E) (List Nat) :=
  match env.file_contents filename s.R with
  | some contents => ⟨.ok contents, s.record (.read_file filename)⟩
  | none => ⟨.error (.runtime_error (what "Could not read file")), s.record (.read_file filename)⟩

end Worker

/-! ### The commands of `RInsideServer::run` -/

section Worker

variable {E V : Type}

/-- A call into the engine that does not run engine code: the engine state moves
on and the result is returned or thrown. -/
def onEngine {α : Type} (s : RInsideServer E) (c : EngineCall) (o : Outcome E α) :
    Outcome (RInsideServer E) α :=
  ⟨o.result, { s.record c with R := o.state }⟩

/-- The branch `cmd == RIS_CMD_SETVALUE` of `run`. -/
def cmd_SETVALUE (K : Constants) (env : Env E V) (s : RInsideServer E) :
    Outcome (RInsideServer E) Unit :=
  match s.stream.read_string with
  | ⟨.error e, st⟩ => ⟨.error e, { s with stream := st }⟩
  | ⟨.ok name, st⟩ =>
    match sexp_from_stream env { s with stream := st } with
    | ⟨.error e, s1⟩ => ⟨.error e, s1⟩
    | ⟨.ok sexp, s1⟩ =>
      CMD_CATCH K
        (match onEngine s1 (.assign name) (env.assign name sexp s1.R) with
          | ⟨.error e, s3⟩ => ⟨.error e, s3⟩
          | ⟨.ok _, s3⟩ => sendReply K.RIS_REPLY_OK s3)

/-- The branch `cmd == RIS_CMD_GETVALUE` of `run`. -/
def cmd_GETVALUE (K : Constants) (env : Env E V) (s : RInsideServer E) :
    Outcome (RInsideServer E) Unit :=
  match s.stream.read_string with
  | ⟨.error e, st⟩ => ⟨.error e, { s with stream := st }⟩
  | ⟨.ok name, st⟩ =>
    match st.read_int32 with
    | ⟨.error e, st1⟩ => ⟨.error e, { s with stream := st1 }⟩
    | ⟨.ok type, st1⟩ =>
      let s2 := { s with stream := st1 }
      CMD_CATCH K
        (match onEngine s2 (.lookup name) (env.lookup name s2.R) with
          | ⟨.error e, s3⟩ => ⟨.error e, s3⟩
          | ⟨.ok sexp, s3⟩ => sexp_to_stream env sexp type true s3)

/-- The loop `for (size_t i=0;i<paramcount;i++) { auto type =
stream.read<int32_t>(); param_types.push_back(type); }` of the SetCallback
branch, with `remaining` turns to go. -/
def readParamTypes : Nat → List Int → BinaryStream → Outcome BinaryStream (List Int)
  | 0, param_types, st => ⟨.ok param_types, st⟩
  | remaining + 1, param_types, st =>
    match st.read_int32 with
    | ⟨.error e, st1⟩ => ⟨.error e, st1⟩
    | ⟨.ok type, st1⟩ => readParamTypes remaining (param_types ++ [type]) st1

/-- The branch `cmd == RIS_CMD_SETCALLBACK` of `run`.  The `uint32_t result_type`
is stored in a vector of `int32_t`; a failing allocation in `reserve` or
`push_back` is not modelled. -/
def cmd_SETCALLBACK (K : Constants) (env : Env E V) (s : RInsideServer E) :
    Outcome (RInsideServer E) Unit :=
  match s.stream.read_string with
  | ⟨.error e, st⟩ => ⟨.error e, { s with stream := st }⟩
  | ⟨.ok name, st⟩ =>
    match st.read_uint32 with
    | ⟨.error e, st1⟩ => ⟨.error e, { s with stream := st1 }⟩
    | ⟨.ok callback_id, st1⟩ =>
      match st1.read_uint32 with
      | ⟨.error e, st2⟩ => ⟨.error e, { s with stream := st2 }⟩
      | ⟨.ok result_type, st2⟩ =>
        match st2.read_size_t with
        | ⟨.error e, st3⟩ => ⟨.error e, { s with stream := st3 }⟩
        | ⟨.ok paramcount, st3⟩ =>
          match readParamTypes paramcount [int32_of_bits result_type] st3 with
          | ⟨.error e, st4⟩ => ⟨.error e, { s with stream := st4 }⟩
          | ⟨.ok param_types, st4⟩ =>
            let s2 := { s with stream := st4 }
            CMD_CATCH K
              (match onEngine s2 (.internalFunction callback_id param_types)
                  (env.internalFunction callback_id param_types s2.R) with
                | ⟨.error e, s3⟩ => ⟨.error e, s3⟩
                | ⟨.ok function, s3⟩ =>
                  match onEngine s3 (.assign name) (env.assign name function s3.R) with
                  | ⟨.error e, s4⟩ => ⟨.error e, s4⟩
                  | ⟨.ok _, s4⟩ => sendReply K.RIS_REPLY_OK s4)

/-- The loop `while (true) { end = source.find(delimiter, start); ... }` of the
RunScript branch, with the number of turns it may still take.  It returns the
value of `start` at the `break`, or the failure of a `parseEvalQ`; `none`
stands for running out of turns. -/
def evalSegments (K : Constants) (env : Env E V) (source : List Nat) :
    Nat → Nat → RInsideServer E → Option (Outcome (RInsideServer E) Nat)
  | 0, _, _ => none
  | fuel + 1, start, s =>
    match find source (what "\n\n") start with
    | none => some ⟨.ok start, s⟩
    | some end_pos =>
      match parseEvalQ K env ((source.drop start).take (end_pos - start)) s with
      | ⟨.error e, s1⟩ => some ⟨.error e, s1⟩
      | ⟨.ok _, s1⟩ => evalSegments K env source fuel (end_pos + (what "\n\n").length) s1

/-- The block between `CMD_TRY` and `CMD_CATCH` of the RunScript branch. -/
def runSource (K : Constants) (env : Env E V) (source : List Nat) (type : Int)
    (s : RInsideServer E) : Option (Outcome (RInsideServer E) Unit) :=
  match evalSegments K env source (source.length + 1) 0 s with
  | none => none
  | some ⟨.error e, s1⟩ => some ⟨.error e, s1⟩
  | some ⟨.ok start, s1⟩ =>
    match parseEval K env (source.drop start) s1 with
    | ⟨.error e, s2⟩ => some ⟨.error e, s2⟩
    | ⟨.ok result, s2⟩ =>
      if type = 0 then some (sendReply K.RIS_REPLY_OK s2)
      else some (sexp_to_stream env result type true s2)

/-- The branch `cmd == RIS_CMD_RUN` of `run`; `none` stands for a loop that ran
out of turns. -/
def cmd_RUN (K : Constants) (env : Env E V) (s : RInsideServer E) :
    Option (Outcome (RInsideServer E) Unit) :=
  match s.stream.read_string with
  | ⟨.error e, st⟩ => some ⟨.error e, { s with stream := st }⟩
  | ⟨.ok source0, st⟩ =>
    match replace_all source0 (what "\r\n") (what "\n") with
    | none => none
    | some source =>
      match st.read_int32 with
      | ⟨.error e, st1⟩ => some ⟨.error e, { s with stream := st1 }⟩
      | ⟨.ok type, st1⟩ =>
        match runSource K env source type { s with stream := st1 } with
        | none => none
        | some block => some (CMD_CATCH K block)

/-- The branch `cmd == RIS_CMD_GETCONSOLE` of `run`. -/
def cmd_GETCONSOLE (K : Constants) (env : Env E V) (s : RInsideServer E) :
    Outcome (RInsideServer E) Unit :=
  let output := env.getConsoleOutput s.R
  let s1 := { (s.record .getConsoleOutput).record .resetConsoleOutput with
              R := env.resetConsoleOutput s.R }
  match sendReply K.RIS_REPLY_VALUE s1 with
  | ⟨.error e, s2⟩ => ⟨.error e, s2⟩
  | ⟨.ok _, s2⟩ =>
    match s2.stream.write_string output with
    | ⟨.error e, st3⟩ => ⟨.error e, { s2 with stream := st3 }⟩
    | ⟨.ok _, st3⟩ => ⟨.ok (), { s2 with stream := st3 }⟩

/-- The decimal digits `std::to_string` produces for an unsigned number. -/
def to_string (n : Nat) : List Nat := what (toString n)

/-- The branch `cmd == RIS_CMD_INITPLOT` of `run`. -/
def cmd_INITPLOT (K : Constants) (env : Env E V) (s : RInsideServer E) :
    Outcome (RInsideServer E) Unit :=
  match s.stream.read_uint32 with
  | ⟨.error e, st⟩ => ⟨.error e, { s with stream := st }⟩
  | ⟨.ok width, st⟩ =>
    match st.read_uint32 with
    | ⟨.error e, st1⟩ => ⟨.error e, { s with stream := st1 }⟩
    | ⟨.ok height, st1⟩ =>
      CMD_CATCH K
        (match parseEval K env
            (what "rserver_plot_tempfile = tempfile(\"rs_plot\", fileext=\".png\")")
            { s with stream := st1 } with
          | ⟨.error e, s3⟩ => ⟨.error e, s3⟩
          | ⟨.ok _, s3⟩ =>
            match parseEval K env
                (what "png(rserver_plot_tempfile, width=" ++ to_string width ++
                  what ", height=" ++ to_string height ++ what ", bg=\"transparent\")")
                s3 with
            | ⟨.error e, s4⟩ => ⟨.error e, s4⟩
            | ⟨.ok _, s4⟩ => sendReply K.RIS_REPLY_OK s4)

/-- The branch `cmd == RIS_CMD_GETPLOT` of `run`. -/
def cmd_GETPLOT (K : Constants) (env : Env E V) (s : RInsideServer E) :
    Outcome (RInsideServer E) Unit :=
  CMD_CATCH K
    (match parseEval K env (what "dev.off()") s with
      | ⟨.error e, s2⟩ => ⟨.error e, s2⟩
      | ⟨.ok _, s2⟩ =>
        match onEngine s2 (.lookup (what "rserver_plot_tempfile"))
            (env.lookup (what "rserver_plot_tempfile") s2.R) with
        | ⟨.error e, s3⟩ => ⟨.error e, s3⟩
        | ⟨.ok value, s3⟩ =>
          match env.as_string value with
          | .error e => ⟨.error e, s3⟩
          | .ok filename =>
            match read_file_as_string env filename s3 with
            | ⟨.error e, s4⟩ => ⟨.error e, s4⟩
            | ⟨.ok output, s4⟩ =>
              let s5 := { s4.record (.remove filename) with R := env.remove filename s4.R }
              match sendReply K.RIS_REPLY_VALUE s5 with
              | ⟨.error e, s6⟩ => ⟨.error e, s6⟩
              | ⟨.ok _, s6⟩ =>
                match s6.stream.write_string output with
                | ⟨.error e, st7⟩ => ⟨.error e, { s6 with stream := st7 }⟩
                | ⟨.ok _, st7⟩ => ⟨.ok (), { s6 with stream := st7 }⟩)

/-- One turn of the loop of `run` after `auto cmd = stream.read<char>();
allowSendReply();`: the chain of `if (cmd == ...)`.  `again` is the rest of the
loop, entered when the branch taken neither returns nor throws. -/
def dispatch (K : Constants) (env : Env E V)
    (again : RInsideServer E → Option (Outcome (RInsideServer E) Unit))
    (cmd : Nat) (s : RInsideServer E) : Option (Outcome (RInsideServer E) Unit) :=
  let next : Outcome (RInsideServer E) Unit → Option (Outcome (RInsideServer E) Unit) :=
    fun o =>
      match o with
      | ⟨.error e, s2⟩ => some ⟨.error e, s2⟩
      | ⟨.ok _, s2⟩ => again s2
  if cmd = K.RIS_CMD_EXIT then some ⟨.ok (), s⟩
  else if cmd = K.RIS_CMD_SETVALUE then next (cmd_SETVALUE K env s)
  else if cmd = K.RIS_CMD_GETVALUE then next (cmd_GETVALUE K env s)
  else if cmd = K.RIS_CMD_SETCALLBACK then next (cmd_SETCALLBACK K env s)
  else if cmd = K.RIS_CMD_RUN then
    match cmd_RUN K env s with
    | none => none
    | some o => next o
  else if cmd = K.RIS_CMD_GETCONSOLE then next (cmd_GETCONSOLE K env s)
  else if cmd = K.RIS_CMD_INITPLOT then next (cmd_INITPLOT K env s)
  else if cmd = K.RIS_CMD_GETPLOT then next (cmd_GETPLOT K env s)
  else some ⟨.error (.runtime_error (what "Client sent unknown command")), s⟩

/-- The loop `while (true) { auto cmd = stream.read<char>(); allowSendReply(); ... }`
of `run`, with the number of commands it may still take; `none` stands for
running out of turns. -/
def serve (K : Constants) (env : Env E V) :
    Nat → RInsideServer E → Option (Outcome (RInsideServer E) Unit)
  | 0, _ => none
  | fuel + 1, s =>
    match s.stream.read_char with
    | ⟨.error e, st⟩ => some ⟨.error e, { s with stream := st }⟩
    | ⟨.ok cmd, st⟩ =>
      dispatch K env (serve K env fuel) cmd (allowSendReply { s with stream := st })

/-- The member `RInsideServer::run`, taking at most `fuel` commands. -/
def run (K : Constants) (env : Env E V) (fuel : Nat) (s : RInsideServer E) :
    Option (Outcome (RInsideServer E) Unit) :=
  match s.stream.read_int32 with
  | ⟨.error e, st⟩ => some ⟨.error e, { s with stream := st }⟩
  | ⟨.ok magic, st⟩ =>
    if magic ≠ K.RIS_MAGIC_NUMBER then
      some ⟨.error (.runtime_error (what "Client sent the wrong magic number")),
        { s with stream := st }⟩
    else
      serve K env fuel { s with stream := st }

end Worker

/-! ## Vocabulary for statements about the controller -/

/-- The stream once `runScript` has sent its request: the three statements
`writeCommand(RIS_CMD_RUN); stream.write(code); stream.write(result_typeid);`
applied to the stream. -/
def BinaryStream.afterRunRequest (K : Constants) (code : List Nat) (result_typeid : Int)
    (st : BinaryStream) : BinaryStream :=
  (((st.write_char K.RIS_CMD_RUN).state.write_string code).state.write_int32
    result_typeid).state

/-- The channel delivers the callback exchanges `ids` one after the other: each
begins with the CallbackInvoke reply tag and the four bytes of the id, is
followed by its nested exchange, which the handler registered under the id
consumes and answers, and the handler returns normally.  The result is the
stream after the last exchange; `none` when the pending bytes do not have this
shape. -/
def deliversCallbacks (K : Constants) (callbacks : Nat → Option Handler) :
    List Nat → BinaryStream → Option BinaryStream
  | [], st => some st
  | id :: ids, st =>
    match st.pending with
    | [] => none
    | tag :: rest =>
      if tag = K.RIS_REPLY_CALLBACK ∧ 4 ≤ rest.length ∧ decodeLE (rest.take 4) = id then
        match callbacks id with
        | none => none
        | some func =>
          match BinaryStream.call { st with pending := rest.drop 4 } func with
          | ⟨.ok _, st1⟩ => deliversCallbacks K callbacks ids st1
          | ⟨.error _, _⟩ => none
      else none

/-- The operations of a controller session. -/
inductive ClientOp where
  | writeCommand (command : Nat)
  | readReply (accept_ok accept_value : Bool)
  | runScript (code : List Nat) (result_typeid : Int)
  | getConsoleOutput
  | initPlot (width height : Nat)
  | getPlot
  deriving DecidableEq, Repr

/-- The session an operation leaves behind, whether it returned or threw. -/
def ClientOp.stateAfter (K : Constants) (callbacks : Nat → Option Handler) :
    ClientOp → RInsideClient → RInsideClient
  | .writeCommand command, s => (RInside.writeCommand command s).state
  | .readReply accept_ok accept_value, s =>
    (RInside.readReply K accept_ok accept_value s).state
  | .runScript code result_typeid, s =>
    match RInside.runScript K callbacks code result_typeid s with
    | some o => o.state
    | none => s
  | .getConsoleOutput, s => (RInside.getConsoleOutput K s).state
  | .initPlot width height, s => (RInside.initPlot K width height s).state
  | .getPlot, s => (RInside.getPlot K s).state

/-- The session after a sequence of operations, each started where the previous
one stopped. -/
def stateAfterAll (K : Constants) (callbacks : Nat → Option Handler) :
    List ClientOp → RInsideClient → RInsideClient
  | [], s => s
  | op :: ops, s => stateAfterAll K callbacks ops (op.stateAfter K callbacks s)

/-! ## Vocabulary for statements about the worker -/

/-- The worker session once an Error reply carrying the message `m` has been sent
from the session `s`: both `sendReply(RIS_REPLY_ERROR)` and `stream.write(m)`
went through, so the Error tag and the encoded string have been appended to
what was written, in three writes, and the may-send flag is down. -/
def errorReplied {E : Type} (K : Constants) (m : List Nat) (s : RInsideServer E) :
    RInsideServer E :=
  { s with stream := { s.stream with
                       written := s.stream.written ++
                         (K.RIS_REPLY_ERROR % 256 :: BinaryStream.string_bytes m),
                       wroom := s.stream.wroom - (9 + m.length),
                       wcalls := s.stream.wcalls + 3 },
           can_send_reply := false }

/-- The worker session once the reply tag `reply` alone has been sent from the
session `s`. -/
def tagReplied {E : Type} (reply : Nat) (s : RInsideServer E) : RInsideServer E :=
  { s with stream := { s.stream with written := s.stream.written ++ [reply % 256],
                                     wroom := s.stream.wroom - 1,
                                     wcalls := s.stream.wcalls + 1 },
           can_send_reply := false }

/-- How the loop of `run` goes on after a command branch: a failure ends `run`,
a normal return leads to the next turn. -/
def nextTurn {E : Type} (again : RInsideServer E → Option (Outcome (RInsideServer E) Unit))
    (o : Outcome (RInsideServer E) Unit) : Option (Outcome (RInsideServer E) Unit) :=
  match o with
  | ⟨.error e, s2⟩ => some ⟨.error e, s2⟩
  | ⟨.ok _, s2⟩ => again s2

/-- The worker session once the stub has sent the CallbackInvoke reply tag and the
callback id from the session `s`: five bytes in two writes, the may-send flag
down. -/
def callbackInvoked {E : Type} (K : Constants) (callback_id : Nat) (s : RInsideServer E) :
    RInsideServer E :=
  { s with stream := { s.stream with
                       written := s.stream.written ++
                         (K.RIS_REPLY_CALLBACK % 256 :: encodeLE 4 callback_id),
                       wroom := s.stream.wroom - 5,
                       wcalls := s.stream.wcalls + 2 },
           can_send_reply := false }

/-- The arguments of a callback as the spec words it: for each declared parameter
TypeTag of the list, in order, the argument with the same index is encoded per
that TypeTag, without a reply tag (`include_reply` is false).  `i` is the index
of the first argument still to be sent. -/
def sendEach {E V : Type} (env : Env E V) (args : Nat → V) :
    List Int → Nat → RInsideServer E → Outcome (RInsideServer E) Unit
  | [], _, s => ⟨.ok (), s⟩
  | p :: ps, i, s =>
    match sexp_to_stream env (args i) p false s with
    | ⟨.error e, s1⟩ => ⟨.error e, s1⟩
    | ⟨.ok _, s1⟩ => sendEach env args ps (i + 1) s1

/-- The script source cut at the left-to-right non-overlapping occurrences of the
blank-line delimiter "\n\n" (two bytes 10): the segments in order, the segment
that is being collected held in reverse in `current`. -/
def segmentsFrom : List Nat → List Nat → List (List Nat)
  | [], current => [current.reverse]
  | 10 :: 10 :: rest, current => current.reverse :: segmentsFrom rest []
  | c :: rest, current => segmentsFrom rest (c :: current)

/-- The segments of a script source: what lies between the left-to-right
non-overlapping occurrences of the delimiter "\n\n".  With `k` occurrences
there are `k + 1` segments. -/
def segments (source : List Nat) : List (List Nat) :=
  segmentsFrom source []

/-- Segments evaluated for effect only, in order, up to the first one that fails. -/
def evalEffects {E V : Type} (K : Constants) (env : Env E V) :
    List (List Nat) → RInsideServer E → Outcome (RInsideServer E) Unit
  | [], s => ⟨.ok (), s⟩
  | segment :: later, s =>
    match parseEvalQ K env segment s with
    | ⟨.error e, s1⟩ => ⟨.error e, s1⟩
    | ⟨.ok _, s1⟩ => evalEffects K env later s1

/-- What the spec says RunScript does with the segments: evaluate all but the last
for effect only, in order, then evaluate the last for its value; reply Ok if
`type` is 0 and else encode the value as `type` in a Value reply.  The first
failure ends the evaluation. -/
def evalInOrder {E V : Type} (K : Constants) (env : Env E V) (type : Int)
    (effects : List (List Nat)) (last : List Nat) (s : RInsideServer E) :
    Outcome (RInsideServer E) Unit :=
  match evalEffects K env effects s with
  | ⟨.error e, s1⟩ => ⟨.error e, s1⟩
  | ⟨.ok _, s1⟩ =>
    match parseEval K env last s1 with
    | ⟨.error e, s2⟩ => ⟨.error e, s2⟩
    | ⟨.ok result, s2⟩ =>
      if type = 0 then sendReply K.RIS_REPLY_OK s2
      else sexp_to_stream env result type true s2

/-- The block of the RunScript branch entered in the middle: the loop over the
delimiters resumed at the index `start` with `fuel` turns left, then the last
segment and the reply.  `runSource` is this function at index 0. -/
def runSourceFrom {E V : Type} (K : Constants) (env : Env E V) (source : List Nat)
    (type : Int) (fuel start : Nat) (s : RInsideServer E) :
    Option (Outcome (RInsideServer E) Unit) :=
  match evalSegments K env source fuel start s with
  | none => none
  | some ⟨.error e, s1⟩ => some ⟨.error e, s1⟩
  | some ⟨.ok start1, s1⟩ =>
    match parseEval K env (source.drop start1) s1 with
    | ⟨.error e, s2⟩ => some ⟨.error e, s2⟩
    | ⟨.ok result, s2⟩ =>
      if type = 0 then some (sendReply K.RIS_REPLY_OK s2)
      else some (sexp_to_stream env result type true s2)

/-! ### The two phases of a command: reading its payload, answering it -/

section Phases

variable {E V : Type}

end Phases

/-- What replacing the Windows line endings of a string means, read from left to
right in one pass: a carriage return directly followed by a line feed becomes
the line feed alone, and the pass goes on behind it; every other character is
kept. -/
def crlf_to_lf : List Nat → List Nat
  | [] => []
  | 13 :: 10 :: rest => 10 :: crlf_to_lf rest
  | c :: rest => c :: crlf_to_lf rest

/-! ## Vocabulary for statements about the wire -/

/-- The bytes that have been produced on a stream between two of its states:
what has been written after `before`. -/
def BinaryStream.produced (before after : BinaryStream) : List Nat :=
  after.written.drop before.written.length

/-- The statements `stream.write(v);` for the `int` values of a list, in order. -/
def write_ints : List Int → BinaryStream → Outcome BinaryStream Unit
  | [], st => ⟨.ok (), st⟩
  | v :: vs, st =>
    match st.write_int32 v with
    | ⟨.error e, st1⟩ => ⟨.error e, st1⟩
    | ⟨.ok _, st1⟩ => write_ints vs st1

/-- The statement `stream.read<int>()` repeated `n` times, the values collected
in the order read. -/
def read_ints : Nat → BinaryStream → Outcome BinaryStream (List Int)
  | 0, st => ⟨.ok [], st⟩
  | n + 1, st =>
    match st.read_int32 with
    | ⟨.error e, st1⟩ => ⟨.error e, st1⟩
    | ⟨.ok v, st1⟩ =>
      match read_ints n st1 with
      | ⟨.error e, st2⟩ => ⟨.error e, st2⟩
      | ⟨.ok vs, st2⟩ => ⟨.ok (v :: vs), st2⟩

/-! ## Example data -/

/-- An example handler: it consumes a four-byte argument and answers with eight
bytes in two writes, then returns. -/
def exampleHandler : Handler :=
  fun _ => { nread := 4, wrote := [255, 255, 255, 255, 10, 0, 0, 0], wcalls := 2, failure := none }

/-- An example handler whose user function throws before touching the stream. -/
def failingHandler : Handler :=
  fun _ => { nread := 0, wrote := [], wcalls := 0, failure := some (.other 7) }

/-- An example callback map: id 7 is `exampleHandler`, id 9 is `failingHandler`. -/
def exampleCallbacks : Nat → Option Handler :=
  fun id => if id = 7 then some exampleHandler else if id = 9 then some failingHandler else none

/-- A freshly constructed session over a stream with room for 100 more bytes,
on which the given bytes are pending. -/
def freshClient (pending : List Nat) : RInsideClient :=
  { stream := { pending := pending, written := [1, 0, 73, 82], wroom := 100, wcalls := 1, failed := false },
    next_callback_id := 1, had_unrecoverable_error := false, can_send_command := true,
    invoked := [] }

/-- An example environment for the worker: an engine without state whose values
are numbers, with empty registries; every evaluation yields 0. -/
def exampleEnv : Env Unit Nat where
  registry_sexp_from_stream := fun _ => none
  registry_sexp_to_stream := fun _ => none
  assign := fun _ _ R => ⟨.ok (), R⟩
  lookup := fun _ R => ⟨.ok 0, R⟩
  internalFunction := fun _ _ R => ⟨.ok 0, R⟩
  parseEvalQ := fun _ R => .done (.ok ()) R
  parseEval := fun _ R => .done (.ok 0) R
  getConsoleOutput := fun _ => []
  resetConsoleOutput := fun R => R
  as_string := fun _ => .ok []
  file_contents := fun _ _ => none
  remove := fun _ R => R

/-- A freshly constructed worker session on which the given bytes are pending. -/
def freshServer (pending : List Nat) : RInsideServer Unit :=
  { stream := { pending := pending, written := [], wroom := 100, wcalls := 0,
                failed := false },
    can_send_reply := false, R := (), calls := [] }

/-- An example decoder for the TypeTag -1 (`int`): it reads the four bytes of the
value. -/
def demoDecodeInt : BinaryStream → Outcome BinaryStream Int :=
  fun st => st.read_int32

/-- An example encoder for the TypeTag -1 (`int`): with `include_reply` it sends the
Value reply tag and the TypeTag first, and then it writes the four bytes of
the value. -/
def demoEncodeInt : Int → Bool → RInsideServer Unit → Outcome (RInsideServer Unit) Unit :=
  fun v include_reply s =>
    if include_reply then
      match sendReply K0.RIS_REPLY_VALUE s with
      | ⟨.error e, s1⟩ => ⟨.error e, s1⟩
      | ⟨.ok _, s1⟩ =>
        match s1.stream.write_int32 (-1) with
        | ⟨.error e, st2⟩ => ⟨.error e, { s1 with stream := st2 }⟩
        | ⟨.ok _, st2⟩ =>
          match st2.write_int32 v with
          | ⟨.error e, st3⟩ => ⟨.error e, { s1 with stream := st3 }⟩
          | ⟨.ok _, st3⟩ => ⟨.ok (), { s1 with stream := st3 }⟩
    else
      match s.stream.write_int32 v with
      | ⟨.error e, st1⟩ => ⟨.error e, { s with stream := st1 }⟩
      | ⟨.ok _, st1⟩ => ⟨.ok (), { s with stream := st1 }⟩

/-- An example environment for the worker with one registered type, `int` under
the TypeTag -1.  Its engine knows the variable `x`, fails on the line `stop()`,
and on the line `cb(5)` calls a callback stub with id 7 and one `int`
parameter, failing when the stub fails; every other line evaluates to 4. -/
def demoEnv : Env Unit Int where
  registry_sexp_from_stream := fun type => if type = -1 then some demoDecodeInt else none
  registry_sexp_to_stream := fun type => if type = -1 then some demoEncodeInt else none
  assign := fun _ _ R => ⟨.ok (), R⟩
  lookup := fun name R =>
    if name = what "x" then ⟨.ok 4, R⟩
    else ⟨.error (.runtime_error (what "no such variable")), R⟩
  internalFunction := fun _ _ R => ⟨.ok 0, R⟩
  parseEvalQ := fun line R =>
    if line = what "stop()" then
      .done (.error (.runtime_error (what "Error evaluating: stop()"))) R
    else .done (.ok ()) R
  parseEval := fun line R =>
    if line = what "stop()" then
      .done (.error (.runtime_error (what "Error evaluating: stop()"))) R
    else if line = what "cb(5)" then
      .invoke 7 [-1, -1] (fun _ => 5) (fun r =>
        match r with
        | .ok v => .done (.ok v) R
        | .error _ => .done (.error (.runtime_error (what "Error evaluating: cb(5)"))) R)
    else .done (.ok 4) R
  getConsoleOutput := fun _ => []
  resetConsoleOutput := fun R => R
  as_string := fun _ => .ok []
  file_contents := fun _ _ => none
  remove := fun _ R => R

/-- The example environment `demoEnv` with another engine: on the line `cb(5)` it
calls a callback stub with id 7 whose one parameter was declared with the
TypeTag 99, for which no encoder is registered. -/
def callbackEnv : Env Unit Int :=
  { demoEnv with
    parseEval := fun line R =>
      if line = what "cb(5)" then
        .invoke 7 [-1, 99] (fun _ => 5) (fun r =>
          match r with
          | .ok v => .done (.ok v) R
          | .error _ => .done (.error (.runtime_error (what "Error evaluating: cb(5)"))) R)
      else demoEnv.parseEval line R }

/-! ## Facts about the byte channel -/

theorem length_encodeLE (w v : Nat) : (encodeLE w v).length = w := by
  induction w generalizing v with
  | zero => rfl
  | succ w ih => simp [encodeLE, ih]

theorem decodeLE_encodeLE (w v : Nat) : decodeLE (encodeLE w v) = v % 256 ^ w := by
  induction w generalizing v with
  | zero => simp [encodeLE, decodeLE, Nat.mod_one]
  | succ w ih =>
    simp only [encodeLE, decodeLE, ih]
    rw [pow_succ, Nat.mul_comm (256 ^ w) 256, Nat.mod_mul]

theorem BinaryStream.read_append (st : BinaryStream) (a b : List Nat)
    (h : st.pending = a ++ b) :
    st.read a.length = ⟨.ok a, { st with pending := b }⟩ := by
  simp [BinaryStream.read, h]

theorem BinaryStream.read_char_cons (st : BinaryStream) (c : Nat) (rest : List Nat)
    (h : st.pending = c :: rest) :
    st.read_char = ⟨.ok c, { st with pending := rest }⟩ := by
  have := st.read_append [c] rest (by simpa using h)
  simp only [List.length_singleton] at this
  simp [BinaryStream.read_char, BinaryStream.read_arith, this, decodeLE]

theorem BinaryStream.read_arith_append (st : BinaryStream) (w v : Nat) (rest : List Nat)
    (h : st.pending = encodeLE w v ++ rest) :
    st.read_arith w = ⟨.ok (v % 256 ^ w), { st with pending := rest }⟩ := by
  have := st.read_append (encodeLE w v) rest h
  rw [length_encodeLE] at this
  simp [BinaryStream.read_arith, this, decodeLE_encodeLE]

theorem BinaryStream.read_string_append (st : BinaryStream) (m rest : List Nat)
    (hm : m.length < 2 ^ 64) (h : st.pending = BinaryStream.string_bytes m ++ rest) :
    st.read_string = ⟨.ok m, { st with pending := rest }⟩ := by
  have h1 : st.pending = encodeLE sizeof_size_t m.length ++ (m ++ rest) := by
    simp [h, BinaryStream.string_bytes]
  have h2 := st.read_arith_append sizeof_size_t m.length (m ++ rest) h1
  have h3 : m.length % 256 ^ sizeof_size_t = m.length :=
    Nat.mod_eq_of_lt (by simpa [sizeof_size_t] using hm)
  rw [h3] at h2
  have h4 := BinaryStream.read_append { st with pending := m ++ rest } m rest rfl
  simp [BinaryStream.read_string, BinaryStream.read_size_t, h2, h4]

theorem BinaryStream.write_ok_iff (st : BinaryStream) (buffer : List Nat) :
    (st.write buffer).result = .ok () ↔ buffer.length ≤ st.wroom := by
  unfold BinaryStream.write
  split <;> simp_all

theorem BinaryStream.write_char_ok_iff (st : BinaryStream) (c : Nat) :
    (st.write_char c).result = .ok () ↔ 1 ≤ st.wroom := by
  simp [BinaryStream.write_char, BinaryStream.write_arith, BinaryStream.write_ok_iff,
    length_encodeLE]

theorem BinaryStream.write_char_of_room (st : BinaryStream) (c : Nat) (h : 1 ≤ st.wroom) :
    st.write_char c = ⟨.ok (), { st with written := st.written ++ [c % 256],
                                         wroom := st.wroom - 1,
                                         wcalls := st.wcalls + 1 }⟩ := by
  simp [BinaryStream.write_char, BinaryStream.write_arith, BinaryStream.write, encodeLE, h]

theorem BinaryStream.write_of_room (st : BinaryStream) (buffer : List Nat)
    (h : buffer.length ≤ st.wroom) :
    st.write buffer = ⟨.ok (), { st with written := st.written ++ buffer,
                                         wroom := st.wroom - buffer.length,
                                         wcalls := st.wcalls + 1 }⟩ := by
  simp [BinaryStream.write, h]

theorem BinaryStream.write_string_of_room (st : BinaryStream) (m : List Nat)
    (h : sizeof_size_t + m.length ≤ st.wroom) :
    st.write_string m = ⟨.ok (), { st with written := st.written ++ BinaryStream.string_bytes m,
                                           wroom := st.wroom - (sizeof_size_t + m.length),
                                           wcalls := st.wcalls + 2 }⟩ := by
  have h1 : (encodeLE sizeof_size_t m.length).length ≤ st.wroom := by
    rw [length_encodeLE]; omega
  simp only [BinaryStream.write_string, BinaryStream.write_size_t, BinaryStream.write_arith,
    BinaryStream.write_of_room st _ h1]
  rw [BinaryStream.write_of_room _ _ (by simp only [length_encodeLE]; omega)]
  simp [BinaryStream.string_bytes, length_encodeLE, Nat.sub_sub]

theorem BinaryStream.afterRunRequest_eq (K : Constants) (code : List Nat) (t : Int)
    (st : BinaryStream) (h : 13 + code.length ≤ st.wroom) :
    st.afterRunRequest K code t =
      { st with written := st.written ++ ([K.RIS_CMD_RUN % 256] ++
                  (BinaryStream.string_bytes code ++ encodeLE 4 (int32_bits t))),
                wroom := st.wroom - (13 + code.length),
                wcalls := st.wcalls + 4 } := by
  unfold BinaryStream.afterRunRequest
  rw [BinaryStream.write_char_of_room _ _ (by omega)]
  rw [BinaryStream.write_string_of_room _ _ (by simp only [sizeof_size_t]; omega)]
  simp only [BinaryStream.write_int32, BinaryStream.write_arith]
  rw [BinaryStream.write_of_room _ _ (by simp only [length_encodeLE, sizeof_size_t]; omega)]
  simp only [length_encodeLE, sizeof_size_t, Nat.sub_sub, List.length_singleton,
    List.singleton_append, List.append_assoc, List.length_append]
  have e1 : 1 + (8 + code.length) + 4 = 13 + code.length := by omega
  rw [e1]
  simp

theorem BinaryStream.read_arith_of_le (st : BinaryStream) (w : Nat)
    (h : w ≤ st.pending.length) :
    st.read_arith w =
      ⟨.ok (decodeLE (st.pending.take w)), { st with pending := st.pending.drop w }⟩ := by
  simp [BinaryStream.read_arith, BinaryStream.read, h]

theorem BinaryStream.read_arith_of_lt (st : BinaryStream) (w : Nat)
    (h : st.pending.length < w) :
    st.read_arith w = ⟨.error .stream_exception, { st with pending := [], failed := true }⟩ := by
  simp [BinaryStream.read_arith, BinaryStream.read, Nat.not_le.2 h]

theorem BinaryStream.read_char_nil (st : BinaryStream) (h : st.pending = []) :
    st.read_char = ⟨.error .stream_exception, { st with pending := [], failed := true }⟩ := by
  apply BinaryStream.read_arith_of_lt
  simp [h]

theorem BinaryStream.call_pending_le (st : BinaryStream) (func : Handler) :
    (st.call func).state.pending.length ≤ st.pending.length := by
  unfold BinaryStream.call
  simp only []
  split <;> simp

theorem BinaryStream.read_arith_failed (st : BinaryStream) (w : Nat) :
    ((∃ a, (st.read_arith w).result = .ok a) ∧ (st.read_arith w).state.failed = st.failed) ∨
    ((st.read_arith w).result = .error .stream_exception ∧
      (st.read_arith w).state.failed = true) := by
  by_cases h : w ≤ st.pending.length
  · rw [BinaryStream.read_arith_of_le _ _ h]; simp
  · rw [BinaryStream.read_arith_of_lt _ _ (by omega)]; simp

theorem BinaryStream.read_int32_failed (st : BinaryStream) :
    ((∃ a, st.read_int32.result = .ok a) ∧ st.read_int32.state.failed = st.failed) ∨
    (st.read_int32.result = .error .stream_exception ∧ st.read_int32.state.failed = true) := by
  unfold BinaryStream.read_int32
  by_cases h : 4 ≤ st.pending.length
  · rw [BinaryStream.read_arith_of_le _ _ h]; simp
  · rw [BinaryStream.read_arith_of_lt _ _ (by omega)]; simp

theorem BinaryStream.call_failed (st : BinaryStream) (func : Handler) :
    (st.call func).state.failed = st.failed := by
  unfold BinaryStream.call
  simp only []
  split <;> rfl

/-! ## Facts about `writeCommand` -/

theorem writeCommand_of_refusing (command : Nat) (s : RInsideClient)
    (h : s.had_unrecoverable_error = true ∨ s.can_send_command = false) :
    (∃ msg, (writeCommand command s).result = .error (.runtime_error msg)) ∧
      (writeCommand command s).state = s := by
  unfold writeCommand
  rcases h with h | h
  · simp [h]
  · by_cases h1 : s.had_unrecoverable_error = true <;> simp [h, h1]

theorem writeCommand_of_ready (command : Nat) (s : RInsideClient)
    (h1 : s.had_unrecoverable_error = false) (h2 : s.can_send_command = true)
    (hw : 1 ≤ s.stream.wroom) :
    writeCommand command s =
      ⟨.ok (), { s with stream := { s.stream with written := s.stream.written ++ [command % 256],
                                                  wroom := s.stream.wroom - 1,
                                                  wcalls := s.stream.wcalls + 1 },
                        can_send_command := false }⟩ := by
  simp [writeCommand, h1, h2, BinaryStream.write_char_of_room _ _ hw]

/-! ## The claims -/

/-- C1: whenever `had_unrecoverable_error` is true or `can_send_command` is false,
`writeCommand` throws a `std::runtime_error` and leaves the whole session as it
was: no byte is written, no write is attempted, and both flags keep their
values. -/
theorem C1_writeCommand_refuses (command : Nat) (s : RInsideClient)
    (h : s.had_unrecoverable_error = true ∨ s.can_send_command = false) :
    (∃ msg, (writeCommand command s).result = .error (.runtime_error msg)) ∧
      (writeCommand command s).state.stream.written = s.stream.written ∧
      (writeCommand command s).state.stream = s.stream ∧
      (writeCommand command s).state.had_unrecoverable_error = s.had_unrecoverable_error ∧
      (writeCommand command s).state.can_send_command = s.can_send_command := by
  obtain ⟨h1, h2⟩ := writeCommand_of_refusing command s h
  exact ⟨h1, by rw [h2], by rw [h2], by rw [h2], by rw [h2]⟩

/-- Witness of C1: a session with a command outstanding refuses the tag 5. -/
theorem C1_writeCommand_refuses_witness :
    ((false = true ∨ false = false) ∧
      ∃ msg, (writeCommand 5 ⟨⟨[], [1, 0, 73, 82, 5], 100, 2, false⟩, 1, false, false, []⟩).result
        = .error (.runtime_error msg)) :=
  ⟨Or.inr rfl,
    (C1_writeCommand_refuses 5 ⟨⟨[], [1, 0, 73, 82, 5], 100, 2, false⟩, 1, false, false, []⟩
      (Or.inr rfl)).1⟩

/-- C2: on a session with `had_unrecoverable_error` false and `can_send_command`
true, over a channel whose write succeeds, `writeCommand(c)` returns normally,
appends exactly the one byte `c` to the channel with a single write, reads
nothing, sets `can_send_command` to false and leaves `had_unrecoverable_error`
false; a second `writeCommand` issued in the state so reached throws a
`std::runtime_error` and changes nothing. -/
theorem C2_writeCommand_sends_one_byte (c : Nat) (s : RInsideClient) (hc : c < 256)
    (h1 : s.had_unrecoverable_error = false) (h2 : s.can_send_command = true)
    (hw : (s.stream.write_char c).result = .ok ()) :
    (writeCommand c s).result = .ok () ∧
      (writeCommand c s).state.stream.written = s.stream.written ++ [c] ∧
      (writeCommand c s).state.stream.wcalls = s.stream.wcalls + 1 ∧
      (writeCommand c s).state.stream.pending = s.stream.pending ∧
      (writeCommand c s).state.can_send_command = false ∧
      (writeCommand c s).state.had_unrecoverable_error = false ∧
      ∀ c2 : Nat,
        (∃ msg, (writeCommand c2 (writeCommand c s).state).result
          = .error (.runtime_error msg)) ∧
        (writeCommand c2 (writeCommand c s).state).state = (writeCommand c s).state := by
  have hroom : 1 ≤ s.stream.wroom := (BinaryStream.write_char_ok_iff _ _).1 hw
  have hmod : c % 256 = c := Nat.mod_eq_of_lt hc
  rw [writeCommand_of_ready c s h1 h2 hroom, hmod]
  refine ⟨rfl, rfl, rfl, rfl, rfl, h1, fun c2 => ?_⟩
  exact writeCommand_of_refusing c2 _ (Or.inr rfl)

/-- Witness of C2: a fresh session sends the tag 5. -/
theorem C2_writeCommand_sends_one_byte_witness :
    (writeCommand 5 ⟨⟨[], [1, 0, 73, 82], 100, 1, false⟩, 1, false, true, []⟩).state.stream.written
      = [1, 0, 73, 82] ++ [5] :=
  (C2_writeCommand_sends_one_byte 5 ⟨⟨[], [1, 0, 73, 82], 100, 1, false⟩, 1, false, true, []⟩
    (by decide) rfl rfl (by decide)).2.1

/-! ## Facts about `readReply` -/

theorem readReply_of_error_tag (K : Constants) (accept_ok accept_value : Bool)
    (m rest : List Nat) (s : RInsideClient) (hm : m.length < 2 ^ 64)
    (hp : s.stream.pending = K.RIS_REPLY_ERROR :: (BinaryStream.string_bytes m ++ rest)) :
    readReply K accept_ok accept_value s =
      ⟨.error (.runtime_error (what "Error in R Server: " ++ m)),
        { s with stream := { s.stream with pending := rest }, can_send_command := true }⟩ := by
  have h1 := s.stream.read_char_cons _ _ hp
  have h2 := BinaryStream.read_string_append
    { s.stream with pending := BinaryStream.string_bytes m ++ rest } m rest hm rfl
  simp [readReply, h1, h2]

/-- C3: for all flags `accept_ok`, `accept_value` and every message `m`, when the
next bytes on the channel are the Error reply tag followed by the encoded string
`m`, `readReply` consumes exactly that tag and `m` (what follows stays pending,
nothing is written), sets `can_send_command` to true, leaves
`had_unrecoverable_error` unchanged and throws a `std::runtime_error` whose text
is "Error in R Server: " followed by `m`; if the session was healthy, a
`writeCommand` issued right afterwards returns normally whenever the channel
accepts the byte. -/
theorem C3_readReply_error_is_recoverable (K : Constants) (accept_ok accept_value : Bool)
    (m rest : List Nat) (s : RInsideClient) (hm : m.length < 2 ^ 64)
    (hp : s.stream.pending = K.RIS_REPLY_ERROR :: (BinaryStream.string_bytes m ++ rest)) :
    (readReply K accept_ok accept_value s).result
        = .error (.runtime_error (what "Error in R Server: " ++ m)) ∧
      (readReply K accept_ok accept_value s).state.stream
        = { s.stream with pending := rest } ∧
      (readReply K accept_ok accept_value s).state.can_send_command = true ∧
      (readReply K accept_ok accept_value s).state.had_unrecoverable_error
        = s.had_unrecoverable_error ∧
      (s.had_unrecoverable_error = false → ∀ c : Nat,
        (s.stream.write_char c).result = .ok () →
        (writeCommand c (readReply K accept_ok accept_value s).state).result = .ok ()) := by
  rw [readReply_of_error_tag K accept_ok accept_value m rest s hm hp]
  refine ⟨rfl, rfl, rfl, rfl, fun hh c hw => ?_⟩
  have hroom : 1 ≤ s.stream.wroom := (BinaryStream.write_char_ok_iff _ _).1 hw
  rw [writeCommand_of_ready c
    { s with stream := { s.stream with pending := rest }, can_send_command := true }
    hh rfl hroom]

/-- Witness of C3: the reply `Error("no")` read with `readReply(false, true)`. -/
theorem C3_readReply_error_is_recoverable_witness :
    (readReply K0 false true
        ⟨⟨[13, 2, 0, 0, 0, 0, 0, 0, 0, 110, 111, 7], [], 10, 0, false⟩, 1, false, false, []⟩).result
      = .error (.runtime_error (what "Error in R Server: " ++ [110, 111])) :=
  (C3_readReply_error_is_recoverable K0 false true [110, 111] [7]
    ⟨⟨[13, 2, 0, 0, 0, 0, 0, 0, 0, 110, 111, 7], [], 10, 0, false⟩, 1, false, false, []⟩
    (by decide) (by decide)).1

/-! ## Facts about `runScript` -/

theorem runScript_eq_loop (K : Constants) (callbacks : Nat → Option Handler) (code : List Nat)
    (t : Int) (s : RInsideClient)
    (h1 : s.had_unrecoverable_error = false) (h2 : s.can_send_command = true)
    (hw : 13 + code.length ≤ s.stream.wroom) :
    runScript K callbacks code t s =
      runScript_loop K callbacks t (s.stream.pending.length + 1)
        { s with stream := s.stream.afterRunRequest K code t, can_send_command := false } := by
  rw [BinaryStream.afterRunRequest_eq K code t _ hw]
  unfold runScript
  rw [writeCommand_of_ready _ s h1 h2 (by omega)]
  simp only []
  rw [BinaryStream.write_string_of_room _ _ (by simp only [sizeof_size_t]; omega)]
  simp only [BinaryStream.write_int32, BinaryStream.write_arith]
  rw [BinaryStream.write_of_room _ _ (by simp only [length_encodeLE, sizeof_size_t]; omega)]
  simp only [length_encodeLE, sizeof_size_t, Nat.sub_sub, List.length_singleton,
    List.singleton_append, List.append_assoc, List.length_append]
  have e1 : 1 + (8 + code.length) + 4 = 13 + code.length := by omega
  rw [e1]
  simp

theorem runScript_loop_total (K : Constants) (callbacks : Nat → Option Handler) (t : Int)
    (fuel : Nat) (s : RInsideClient) (h : s.stream.pending.length < fuel) :
    ∃ o, runScript_loop K callbacks t fuel s = some o := by
  induction fuel generalizing s with
  | zero => omega
  | succ fuel ih =>
    cases hp : s.stream.pending with
    | nil =>
      simp [runScript_loop, BinaryStream.read_char_nil _ hp]
    | cons tag rest =>
      have hlen : rest.length < fuel := by rw [hp] at h; simpa using h
      simp only [runScript_loop, BinaryStream.read_char_cons _ _ _ hp]
      split
      · by_cases h4 : 4 ≤ rest.length
        · rw [BinaryStream.read_uint32,
            BinaryStream.read_arith_of_le _ 4 (by simpa using h4)]
          simp only []
          split
          · exact ⟨_, rfl⟩
          · split
            · exact ⟨_, rfl⟩
            · rename_i _ func _ _ _ st3 hcall
              apply ih
              have := BinaryStream.call_pending_le
                { s.stream with pending := rest.drop 4 } func
              rw [hcall] at this
              simp only [List.length_drop] at this
              simp only []
              omega
        · rw [BinaryStream.read_uint32,
            BinaryStream.read_arith_of_lt _ 4 (by simpa using h4)]
          exact ⟨_, rfl⟩
      · split
        · split <;> exact ⟨_, rfl⟩
        · split
          · split
            · exact ⟨_, rfl⟩
            · split
              · exact ⟨_, rfl⟩
              · split <;> exact ⟨_, rfl⟩
          · exact ih _ (by simpa using hlen)

theorem runScript_total (K : Constants) (callbacks : Nat → Option Handler) (code : List Nat)
    (t : Int) (s : RInsideClient) :
    ∃ o, runScript K callbacks code t s = some o := by
  unfold runScript
  split
  · exact ⟨_, rfl⟩
  · split
    · exact ⟨_, rfl⟩
    · split
      · exact ⟨_, rfl⟩
      · exact runScript_loop_total _ _ _ _ _ (by simp)

theorem runScript_loop_mono (K : Constants) (callbacks : Nat → Option Handler) (t : Int)
    (fuel : Nat) (s : RInsideClient) (o : Outcome RInsideClient Unit)
    (h : runScript_loop K callbacks t fuel s = some o) (more : Nat) :
    runScript_loop K callbacks t (fuel + more) s = some o := by
  induction fuel generalizing s with
  | zero => simp [runScript_loop] at h
  | succ fuel ih =>
    rw [Nat.add_right_comm]
    revert h
    simp only [runScript_loop]
    split
    · exact id
    · split
      · split
        · exact id
        · split
          · exact id
          · split
            · exact id
            · exact ih _
      · split
        · exact id
        · split
          · exact id
          · exact ih _

theorem runScript_loop_callback (K : Constants) (callbacks : Nat → Option Handler) (t : Int)
    (fuel : Nat) (s : RInsideClient) (rest : List Nat) (func : Handler)
    (hp : s.stream.pending = K.RIS_REPLY_CALLBACK :: rest) (h4 : 4 ≤ rest.length)
    (hcb : callbacks (decodeLE (rest.take 4)) = some func) :
    runScript_loop K callbacks t (fuel + 1) s =
      match BinaryStream.call { s.stream with pending := rest.drop 4 } func with
      | ⟨.error e, st3⟩ =>
        some ⟨.error e, { s with stream := st3,
                                 invoked := s.invoked ++ [decodeLE (rest.take 4)],
                                 had_unrecoverable_error := true }⟩
      | ⟨.ok _, st3⟩ =>
        runScript_loop K callbacks t fuel
          { s with stream := st3, invoked := s.invoked ++ [decodeLE (rest.take 4)] } := by
  simp only [runScript_loop, BinaryStream.read_char_cons _ _ _ hp, if_true]
  rw [BinaryStream.read_uint32, BinaryStream.read_arith_of_le _ 4 (by simpa using h4)]
  simp only [hcb]

theorem runScript_loop_ok (K : Constants) (callbacks : Nat → Option Handler) (t : Int)
    (fuel : Nat) (s : RInsideClient) (rest : List Nat)
    (hK : K.replyTagsDistinct) (hp : s.stream.pending = K.RIS_REPLY_OK :: rest) :
    runScript_loop K callbacks t (fuel + 1) s =
      if t ≠ 0 then
        some ⟨.error (.runtime_error
                (what "runScript() did not return a value when one was requested")),
              { s with stream := { s.stream with pending := rest },
                       had_unrecoverable_error := true }⟩
      else
        some ⟨.ok (), { s with stream := { s.stream with pending := rest } }⟩ := by
  have hne : K.RIS_REPLY_OK ≠ K.RIS_REPLY_CALLBACK := by
    simp [Constants.replyTagsDistinct] at hK; omega
  simp [runScript_loop, BinaryStream.read_char_cons _ _ _ hp, hne, unrecoverable_error]

theorem runScript_loop_value (K : Constants) (callbacks : Nat → Option Handler) (t : Int)
    (fuel : Nat) (s : RInsideClient) (rest : List Nat)
    (hK : K.replyTagsDistinct) (hp : s.stream.pending = K.RIS_REPLY_VALUE :: rest)
    (h4 : 4 ≤ rest.length) :
    runScript_loop K callbacks t (fuel + 1) s =
      if t = 0 then
        some ⟨.error (.runtime_error
                (what "runScript() did return a value when none was requested")),
              { s with stream := { s.stream with pending := rest },
                       had_unrecoverable_error := true }⟩
      else if int32_of_bits (decodeLE (rest.take 4)) ≠ t then
        some ⟨.error (.runtime_error
                (what "runScript() did return a value of the wrong type")),
              { s with stream := { s.stream with pending := rest.drop 4 },
                       had_unrecoverable_error := true }⟩
      else
        some ⟨.ok (), { s with stream := { s.stream with pending := rest.drop 4 } }⟩ := by
  have hne : K.RIS_REPLY_VALUE ≠ K.RIS_REPLY_CALLBACK ∧ K.RIS_REPLY_VALUE ≠ K.RIS_REPLY_OK := by
    simp [Constants.replyTagsDistinct] at hK; omega
  simp only [runScript_loop, BinaryStream.read_char_cons _ _ _ hp, hne.1, hne.2, if_false]
  rw [BinaryStream.read_int32, BinaryStream.read_arith_of_le _ 4 (by simpa using h4)]
  simp [unrecoverable_error]

theorem runScript_loop_skip (K : Constants) (callbacks : Nat → Option Handler) (t : Int)
    (fuel : Nat) (s : RInsideClient) (tag : Nat) (rest : List Nat)
    (hp : s.stream.pending = tag :: rest)
    (h1 : tag ≠ K.RIS_REPLY_CALLBACK) (h2 : tag ≠ K.RIS_REPLY_OK)
    (h3 : tag ≠ K.RIS_REPLY_VALUE) :
    runScript_loop K callbacks t (fuel + 1) s =
      runScript_loop K callbacks t fuel
        { s with stream := { s.stream with pending := rest } } := by
  simp [runScript_loop, BinaryStream.read_char_cons _ _ _ hp, h1, h2, h3]

theorem deliversCallbacks_length (K : Constants) (callbacks : Nat → Option Handler)
    (ids : List Nat) (st st1 : BinaryStream)
    (h : deliversCallbacks K callbacks ids st = some st1) :
    st1.pending.length + ids.length ≤ st.pending.length := by
  induction ids generalizing st with
  | nil =>
    simp only [deliversCallbacks, Option.some.injEq] at h
    simp [h]
  | cons id ids ih =>
    revert h
    simp only [deliversCallbacks]
    split
    · simp
    · rename_i tag rest hp
      split
      · split
        · simp
        · rename_i func _
          split
          · rename_i st2 hcall
            intro h
            have h1 := ih _ h
            have h2 := BinaryStream.call_pending_le { st with pending := rest.drop 4 } func
            rw [hcall] at h2
            simp only [List.length_drop] at h2
            simp only [hp, List.length_cons]
            omega
          · simp
      · simp

theorem runScript_loop_deliversCallbacks (K : Constants) (callbacks : Nat → Option Handler)
    (t : Int) (ids : List Nat) (s : RInsideClient) (st1 : BinaryStream) (fuel : Nat)
    (h : deliversCallbacks K callbacks ids s.stream = some st1) :
    runScript_loop K callbacks t (ids.length + fuel) s =
      runScript_loop K callbacks t fuel
        { s with stream := st1, invoked := s.invoked ++ ids } := by
  induction ids generalizing s with
  | nil =>
    simp only [deliversCallbacks, Option.some.injEq] at h
    simp [← h]
  | cons id ids ih =>
    revert h
    simp only [deliversCallbacks]
    split
    · simp
    · rename_i tag rest hp
      split
      · rename_i hcond
        obtain ⟨htag, h4, hid⟩ := hcond
        split
        · simp
        · rename_i func hcb
          split
          · rename_i st2 hcall
            intro h
            have e : (id :: ids).length + fuel = (ids.length + fuel) + 1 := by
              simp only [List.length_cons]; omega
            rw [e, runScript_loop_callback K callbacks t _ s rest func (by rw [hp, htag]) h4
              (by rw [hid]; exact hcb), hcall]
            simp only []
            rw [ih _ h, hid]
            simp
          · simp
      · simp

theorem runScript_after_callbacks (K : Constants) (callbacks : Nat → Option Handler)
    (code : List Nat) (t : Int) (s : RInsideClient) (ids : List Nat) (st1 : BinaryStream)
    (o : Outcome RInsideClient Unit)
    (h1 : s.had_unrecoverable_error = false) (h2 : s.can_send_command = true)
    (hw : 13 + code.length ≤ s.stream.wroom)
    (hd : deliversCallbacks K callbacks ids (s.stream.afterRunRequest K code t) = some st1)
    (hlast : runScript_loop K callbacks t 1
      { s with stream := st1, can_send_command := false, invoked := s.invoked ++ ids }
        = some o) :
    runScript K callbacks code t s = some o := by
  rw [runScript_eq_loop K callbacks code t s h1 h2 hw]
  have hlen := deliversCallbacks_length K callbacks ids _ st1 hd
  have hpend : (s.stream.afterRunRequest K code t).pending = s.stream.pending := by
    rw [BinaryStream.afterRunRequest_eq K code t _ hw]
  rw [hpend] at hlen
  have hrun := runScript_loop_deliversCallbacks K callbacks t ids
    { s with stream := s.stream.afterRunRequest K code t, can_send_command := false } st1 1 hd
  rw [hlast] at hrun
  have hmono := runScript_loop_mono K callbacks t _ _ o hrun
    (s.stream.pending.length - ids.length)
  have e : ids.length + 1 + (s.stream.pending.length - ids.length)
      = s.stream.pending.length + 1 := by omega
  rw [e] at hmono
  exact hmono

theorem runScript_loop_error_tag (K : Constants) (callbacks : Nat → Option Handler) (t : Int)
    (fuel : Nat) (s : RInsideClient) (rest : List Nat)
    (hK : K.replyTagsDistinct) (hp : s.stream.pending = K.RIS_REPLY_ERROR :: rest) :
    runScript_loop K callbacks t (fuel + 1) s =
      runScript_loop K callbacks t fuel
        { s with stream := { s.stream with pending := rest } } := by
  have hne : K.RIS_REPLY_ERROR ≠ K.RIS_REPLY_CALLBACK ∧ K.RIS_REPLY_ERROR ≠ K.RIS_REPLY_OK ∧
      K.RIS_REPLY_ERROR ≠ K.RIS_REPLY_VALUE := by
    simp [Constants.replyTagsDistinct] at hK; omega
  exact runScript_loop_skip K callbacks t fuel s _ rest hp hne.1 hne.2.1 hne.2.2

/-- C4, the code at the failing input: a healthy session runs
`runScript("", 0)` and the channel delivers the Error reply tag (13) followed by
the encoded string "no".  The loop of `runScript` has no branch for the Error
tag: the tag and then every byte of the encoded message are read as reply tags
and dropped, the read at the end of the stream throws a `stream_exception` that
does not carry the message, and `can_send_command` is still false. -/
theorem C4_runScript_error_reply_at_failing_input :
    runScript K0 (fun _ => none) [] 0
        (freshClient [13, 2, 0, 0, 0, 0, 0, 0, 0, 110, 111])
      = some ⟨.error .stream_exception,
          { stream := { pending := [],
                        written := [1, 0, 73, 82, 5, 0, 0, 0, 0, 0, 0, 0, 0, 0, 0, 0, 0],
                        wroom := 87, wcalls := 5, failed := true },
            next_callback_id := 1, had_unrecoverable_error := false,
            can_send_command := false, invoked := [] }⟩ := by
  decide

theorem stateAfterAll_had_unrecoverable_error (K : Constants)
    (callbacks : Nat → Option Handler) (ops : List ClientOp) (s : RInsideClient)
    (h : s.had_unrecoverable_error = true) :
    (stateAfterAll K callbacks ops s).had_unrecoverable_error = true := by
  induction ops generalizing s with
  | nil => exact h
  | cons op ops ih =>
    apply ih
    cases op with
    | writeCommand c =>
      simp [ClientOp.stateAfter, (writeCommand_of_refusing c s (Or.inl h)).2, h]
    | readReply a b =>
      simp only [ClientOp.stateAfter, readReply]
      split
      · exact h
      · split
        · split <;> exact h
        · split
          · rfl
          · split
            · rfl
            · exact h
    | runScript code t =>
      simp [ClientOp.stateAfter, runScript, writeCommand, h]
    | getConsoleOutput =>
      simp [ClientOp.stateAfter, getConsoleOutput, getString, writeCommand, h]
    | initPlot w hh =>
      simp [ClientOp.stateAfter, initPlot, writeCommand, h]
    | getPlot =>
      simp [ClientOp.stateAfter, getPlot, getString, writeCommand, h]

/-- C5: (1) when, after any number of callback exchanges that went well, the
channel delivers a CallbackInvoke for a registered handler and that handler
throws `e`, `runScript` throws the same `e` and leaves
`had_unrecoverable_error` set; (2) once `had_unrecoverable_error` is set, it is
still set after any sequence of controller operations (`writeCommand`,
`readReply`, `runScript`, `getConsoleOutput`, `initPlot`, `getPlot`), and every
`writeCommand` issued then throws a `std::runtime_error` and leaves the session,
its stream included, untouched: no byte is written and no write is attempted. -/
theorem C5_handler_failure_is_unrecoverable (K : Constants)
    (callbacks : Nat → Option Handler) :
    (∀ (code : List Nat) (t : Int) (s : RInsideClient) (ids : List Nat) (st1 : BinaryStream)
        (rest : List Nat) (func : Handler) (e : Failure),
        s.had_unrecoverable_error = false → s.can_send_command = true →
        13 + code.length ≤ s.stream.wroom →
        deliversCallbacks K callbacks ids (s.stream.afterRunRequest K code t) = some st1 →
        st1.pending = K.RIS_REPLY_CALLBACK :: rest → 4 ≤ rest.length →
        callbacks (decodeLE (rest.take 4)) = some func →
        (func { st1 with pending := rest.drop 4 }).failure = some e →
        ∃ o, runScript K callbacks code t s = some o ∧ o.result = .error e ∧
          o.state.had_unrecoverable_error = true ∧
          o.state.invoked = s.invoked ++ ids ++ [decodeLE (rest.take 4)]) ∧
    (∀ (ops : List ClientOp) (s : RInsideClient), s.had_unrecoverable_error = true →
        (stateAfterAll K callbacks ops s).had_unrecoverable_error = true ∧
        ∀ c : Nat,
          (∃ msg, (writeCommand c (stateAfterAll K callbacks ops s)).result
            = .error (.runtime_error msg)) ∧
          (writeCommand c (stateAfterAll K callbacks ops s)).state
            = stateAfterAll K callbacks ops s) := by
  constructor
  · intro code t s ids st1 rest func e h1 h2 hw hd hp h4 hcb hfail
    have hcall : ∃ st3, BinaryStream.call { st1 with pending := rest.drop 4 } func
        = ⟨.error e, st3⟩ := by
      simp [BinaryStream.call, hfail]
    obtain ⟨st3, hcall⟩ := hcall
    have hlast : runScript_loop K callbacks t 1
        { s with stream := st1, can_send_command := false, invoked := s.invoked ++ ids }
        = some ⟨.error e,
            { s with stream := st3, can_send_command := false,
                     invoked := s.invoked ++ ids ++ [decodeLE (rest.take 4)],
                     had_unrecoverable_error := true }⟩ := by
      rw [runScript_loop_callback K callbacks t 0 _ rest func hp h4 hcb]
      simp only []
      rw [hcall]
    exact ⟨_, runScript_after_callbacks K callbacks code t s ids st1 _ h1 h2 hw hd hlast,
      rfl, rfl, rfl⟩
  · intro ops s h
    have h1 := stateAfterAll_had_unrecoverable_error K callbacks ops s h
    exact ⟨h1, fun c => writeCommand_of_refusing c _ (Or.inl h1)⟩

/-- Witness of C5: the first reply to `runScript("", 0)` is CallbackInvoke(9) and
the handler registered under 9 throws. -/
theorem C5_handler_failure_is_unrecoverable_witness :
    ∃ o, runScript K0 exampleCallbacks [] 0 (freshClient [10, 9, 0, 0, 0]) = some o ∧
      o.result = .error (.other 7) ∧ o.state.had_unrecoverable_error = true ∧
      o.state.invoked = [] ++ [] ++ [decodeLE (List.take 4 [9, 0, 0, 0])] :=
  (C5_handler_failure_is_unrecoverable K0 exampleCallbacks).1 [] 0
    (freshClient [10, 9, 0, 0, 0]) []
    ((freshClient [10, 9, 0, 0, 0]).stream.afterRunRequest K0 [] 0) [9, 0, 0, 0]
    failingHandler (.other 7) rfl rfl (by decide) rfl rfl (by decide) rfl rfl

/-- C6: for every list `ids` of registered callback ids (of any length, the
empty list included): if after the RunScript request the channel delivers the
exchanges CallbackInvoke(id) for the ids of the list in turn, every handler
returning normally, and then a valid terminal reply (the Ok tag when no value
was requested, or the Value tag with the requested TypeTag when one was), then
`runScript` returns normally, it has called exactly the handlers of `ids`, once
each and in that order, and it has read the channel up to and including the
terminal reply tag (and the TypeTag of a Value reply), not further. -/
theorem C6_runScript_serves_callbacks_in_order (K : Constants) (hK : K.replyTagsDistinct)
    (callbacks : Nat → Option Handler) (code : List Nat) (t : Int) (s : RInsideClient)
    (ids : List Nat) (st1 : BinaryStream) (rest : List Nat)
    (h1 : s.had_unrecoverable_error = false) (h2 : s.can_send_command = true)
    (hw : 13 + code.length ≤ s.stream.wroom)
    (hd : deliversCallbacks K callbacks ids (s.stream.afterRunRequest K code t) = some st1)
    (hterm : (t = 0 ∧ st1.pending = K.RIS_REPLY_OK :: rest) ∨
      (t ≠ 0 ∧ ∃ tag : List Nat, tag.length = 4 ∧ int32_of_bits (decodeLE tag) = t ∧
        st1.pending = K.RIS_REPLY_VALUE :: (tag ++ rest))) :
    runScript K callbacks code t s =
      some ⟨.ok (), { s with stream := { st1 with pending := rest },
                             can_send_command := false,
                             invoked := s.invoked ++ ids }⟩ := by
  apply runScript_after_callbacks K callbacks code t s ids st1 _ h1 h2 hw hd
  rcases hterm with ⟨ht, hp⟩ | ⟨ht, tag, hlen, htag, hp⟩
  · rw [runScript_loop_ok K callbacks t 0 _ rest hK hp]
    simp [ht]
  · have h4 : 4 ≤ (tag ++ rest).length := by simp [hlen]
    rw [runScript_loop_value K callbacks t 0 _ (tag ++ rest) hK hp h4]
    have e1 : (tag ++ rest).take 4 = tag := by
      rw [← hlen]; simp
    have e2 : (tag ++ rest).drop 4 = rest := by
      rw [← hlen]; simp
    simp [ht, e1, e2, htag]

/-- Witness of C6: `runScript("", 0)` with one exchange CallbackInvoke(7), whose
handler consumes the argument `5`, and then the reply Ok. -/
theorem C6_runScript_serves_callbacks_in_order_witness :
    runScript K0 exampleCallbacks [] 0 (freshClient [10, 7, 0, 0, 0, 5, 0, 0, 0, 11]) =
      some ⟨.ok (),
        { freshClient [10, 7, 0, 0, 0, 5, 0, 0, 0, 11] with
          stream := { pending := [],
                      written := [1, 0, 73, 82, 5, 0, 0, 0, 0, 0, 0, 0, 0, 0, 0, 0, 0,
                                  255, 255, 255, 255, 10, 0, 0, 0],
                      wroom := 79, wcalls := 7, failed := false },
          can_send_command := false,
          invoked := [] ++ [7] }⟩ :=
  C6_runScript_serves_callbacks_in_order K0 (by decide) exampleCallbacks [] 0
    (freshClient [10, 7, 0, 0, 0, 5, 0, 0, 0, 11]) [7]
    { pending := [11],
      written := [1, 0, 73, 82, 5, 0, 0, 0, 0, 0, 0, 0, 0, 0, 0, 0, 0,
                  255, 255, 255, 255, 10, 0, 0, 0],
      wroom := 79, wcalls := 7, failed := false } []
    rfl rfl (by decide) (by decide) (Or.inl ⟨rfl, rfl⟩)

/-- C7: let the reply that follows the RunScript request (after any number of
callback exchanges that went well) be read by `runScript` with declared result
type `t`.  If it is the Ok tag, `runScript` returns normally exactly when
`t = 0`; when `t ≠ 0` it throws a `std::runtime_error` and
`had_unrecoverable_error` is set.  If it is the Value tag followed by a four-byte
TypeTag `u`, `runScript` returns normally exactly when `t ≠ 0` and `u = t`;
when `t = 0` (whatever follows the tag) or `u ≠ t` it throws a
`std::runtime_error` and `had_unrecoverable_error` is set.  When it returns
normally `had_unrecoverable_error` is still false. -/
theorem C7_runScript_validates_terminal_reply (K : Constants) (hK : K.replyTagsDistinct)
    (callbacks : Nat → Option Handler) (code : List Nat) (t : Int) (s : RInsideClient)
    (ids : List Nat) (st1 : BinaryStream) (rest : List Nat)
    (h1 : s.had_unrecoverable_error = false) (h2 : s.can_send_command = true)
    (hw : 13 + code.length ≤ s.stream.wroom)
    (hd : deliversCallbacks K callbacks ids (s.stream.afterRunRequest K code t) = some st1) :
    (st1.pending = K.RIS_REPLY_OK :: rest →
      ∃ o, runScript K callbacks code t s = some o ∧
        (o.result = .ok () ↔ t = 0) ∧
        (t = 0 → o.state.had_unrecoverable_error = false) ∧
        (t ≠ 0 → (∃ msg, o.result = .error (.runtime_error msg)) ∧
          o.state.had_unrecoverable_error = true)) ∧
    (st1.pending = K.RIS_REPLY_VALUE :: rest → 4 ≤ rest.length →
      ∃ o, runScript K callbacks code t s = some o ∧
        (o.result = .ok () ↔ (t ≠ 0 ∧ int32_of_bits (decodeLE (rest.take 4)) = t)) ∧
        (t ≠ 0 ∧ int32_of_bits (decodeLE (rest.take 4)) = t →
          o.state.had_unrecoverable_error = false) ∧
        (t = 0 ∨ int32_of_bits (decodeLE (rest.take 4)) ≠ t →
          (∃ msg, o.result = .error (.runtime_error msg)) ∧
          o.state.had_unrecoverable_error = true)) ∧
    (st1.pending = K.RIS_REPLY_VALUE :: rest → t = 0 →
      ∃ o, runScript K callbacks code t s = some o ∧
        (∃ msg, o.result = .error (.runtime_error msg)) ∧
        o.state.had_unrecoverable_error = true) := by
  refine ⟨fun hp => ?_, fun hp h4 => ?_, fun hp ht => ?_⟩
  · have hl := runScript_loop_ok K callbacks t 0
      { s with stream := st1, can_send_command := false, invoked := s.invoked ++ ids }
      rest hK hp
    by_cases ht : t = 0
    · rw [if_neg (by simpa using ht)] at hl
      refine ⟨_, runScript_after_callbacks K callbacks code t s ids st1 _ h1 h2 hw hd hl, ?_⟩
      simp [ht, h1]
    · rw [if_pos ht] at hl
      refine ⟨_, runScript_after_callbacks K callbacks code t s ids st1 _ h1 h2 hw hd hl, ?_⟩
      simp [ht]
  · have hl := runScript_loop_value K callbacks t 0
      { s with stream := st1, can_send_command := false, invoked := s.invoked ++ ids }
      rest hK hp h4
    by_cases ht : t = 0
    · rw [if_pos ht] at hl
      refine ⟨_, runScript_after_callbacks K callbacks code t s ids st1 _ h1 h2 hw hd hl, ?_⟩
      simp [ht]
    · rw [if_neg ht] at hl
      by_cases hu : int32_of_bits (decodeLE (rest.take 4)) = t
      · rw [if_neg (by simpa using hu)] at hl
        refine ⟨_, runScript_after_callbacks K callbacks code t s ids st1 _ h1 h2 hw hd hl, ?_⟩
        simp [ht, hu, h1]
      · rw [if_pos hu] at hl
        refine ⟨_, runScript_after_callbacks K callbacks code t s ids st1 _ h1 h2 hw hd hl, ?_⟩
        simp [ht, hu]
  · have hne : K.RIS_REPLY_VALUE ≠ K.RIS_REPLY_CALLBACK ∧
        K.RIS_REPLY_VALUE ≠ K.RIS_REPLY_OK := by
      simp [Constants.replyTagsDistinct] at hK; omega
    have hl : runScript_loop K callbacks t 1
        { s with stream := st1, can_send_command := false, invoked := s.invoked ++ ids }
        = some ⟨.error (.runtime_error
              (what "runScript() did return a value when none was requested")),
            { s with stream := { st1 with pending := rest }, can_send_command := false,
                     invoked := s.invoked ++ ids, had_unrecoverable_error := true }⟩ := by
      simp [runScript_loop, BinaryStream.read_char_cons _ _ _ hp, hne.1, hne.2, ht,
        unrecoverable_error]
    exact ⟨_, runScript_after_callbacks K callbacks code t s ids st1 _ h1 h2 hw hd hl,
      ⟨_, rfl⟩, rfl⟩

/-- Witness of C7: `runScript("", -1)` answered with `Value` of TypeTag -20. -/
theorem C7_runScript_validates_terminal_reply_witness :
    ∃ o, runScript K0 exampleCallbacks [] (-1)
        (freshClient [12, 236, 255, 255, 255, 1, 0]) = some o ∧
      (o.result = .ok () ↔
        ((-1 : Int) ≠ 0 ∧
          int32_of_bits (decodeLE (List.take 4 [236, 255, 255, 255, 1, 0])) = -1)) ∧
      ((-1 : Int) ≠ 0 ∧
          int32_of_bits (decodeLE (List.take 4 [236, 255, 255, 255, 1, 0])) = -1 →
        o.state.had_unrecoverable_error = false) ∧
      ((-1 : Int) = 0 ∨
          int32_of_bits (decodeLE (List.take 4 [236, 255, 255, 255, 1, 0])) ≠ -1 →
        (∃ msg, o.result = .error (.runtime_error msg)) ∧
        o.state.had_unrecoverable_error = true) :=
  (C7_runScript_validates_terminal_reply K0 (by decide) exampleCallbacks [] (-1)
    (freshClient [12, 236, 255, 255, 255, 1, 0]) []
    ((freshClient [12, 236, 255, 255, 255, 1, 0]).stream.afterRunRequest K0 [] (-1))
    [236, 255, 255, 255, 1, 0] rfl rfl (by decide) rfl).2.1 rfl (by decide)

theorem readReply_of_other_tag (K : Constants) (accept_ok accept_value : Bool)
    (r : Nat) (rest : List Nat) (s : RInsideClient)
    (hp : s.stream.pending = r :: rest)
    (h1 : r ≠ K.RIS_REPLY_ERROR) (h2 : r ≠ K.RIS_REPLY_OK) (h3 : r ≠ K.RIS_REPLY_VALUE) :
    readReply K accept_ok accept_value s =
      ⟨.ok r, { s with stream := { s.stream with pending := rest } }⟩ := by
  simp [readReply, BinaryStream.read_char_cons _ _ _ hp, h1, h2, h3]

/-- C8, the code at the failing inputs: `readReply(false, true)` reads the
CallbackInvoke tag (10), and `readReply(true, false)` reads the byte 0, which is
no reply tag.  Both calls return the byte normally, without setting
`had_unrecoverable_error`; and `getConsoleOutput`, which calls
`readReply(false, true)` and ignores the tag returned, goes on to read a string
after the CallbackInvoke tag and returns it with `can_send_command` set. -/
theorem C8_readReply_at_failing_input :
    readReply K0 false true
        { freshClient [10, 7, 0, 0, 0] with can_send_command := false }
      = ⟨.ok 10, { freshClient [7, 0, 0, 0] with can_send_command := false }⟩ ∧
    readReply K0 true false { freshClient [0] with can_send_command := false }
      = ⟨.ok 0, { freshClient [] with can_send_command := false }⟩ ∧
    getConsoleOutput K0 (freshClient [10, 2, 0, 0, 0, 0, 0, 0, 0, 110, 111])
      = ⟨.ok [110, 111],
          { freshClient [] with
            stream := { pending := [], written := [1, 0, 73, 82, 6], wroom := 99,
                        wcalls := 2, failed := false } }⟩ := by
  decide

theorem runScript_loop_cases (K : Constants) (callbacks : Nat → Option Handler) (t : Int)
    (fuel : Nat) (s : RInsideClient) (o : Outcome RInsideClient Unit)
    (h : runScript_loop K callbacks t fuel s = some o) :
    o.state.can_send_command = s.can_send_command ∧
      (o.state.stream.failed = s.stream.failed ∨
        (o.result = .error .stream_exception ∧ o.state.stream.failed = true)) := by
  induction fuel generalizing s with
  | zero => simp [runScript_loop] at h
  | succ fuel ih =>
    revert h
    simp only [runScript_loop]
    have h1 := BinaryStream.read_arith_failed s.stream 1
    rw [BinaryStream.read_char]
    rcases hrc : s.stream.read_arith 1 with ⟨r, st⟩
    rw [hrc] at h1
    cases r with
    | error e =>
      simp only [reduceCtorEq, exists_false, false_and, Except.error.injEq, false_or] at h1
      simp only [Option.some.injEq]
      rintro rfl
      simp [h1.1, h1.2]
    | ok reply =>
      simp only [Except.ok.injEq, exists_eq', true_and, reduceCtorEq, false_and, or_false] at h1
      simp only []
      split
      · have h2 := BinaryStream.read_arith_failed st 4
        rw [BinaryStream.read_uint32]
        rcases hr4 : st.read_arith 4 with ⟨r2, st2⟩
        rw [hr4] at h2
        cases r2 with
        | error e =>
          simp only [reduceCtorEq, exists_false, false_and, Except.error.injEq, false_or] at h2
          simp only [Option.some.injEq]
          rintro rfl
          simp [h2.1, h2.2]
        | ok id =>
          simp only [Except.ok.injEq, exists_eq', true_and, reduceCtorEq, false_and,
            or_false] at h2
          simp only []
          split
          · simp only [Option.some.injEq]
            rintro rfl
            simp [h2, h1]
          · rename_i func _
            have h3 := BinaryStream.call_failed st2 func
            rcases hc : st2.call func with ⟨r3, st3⟩
            rw [hc] at h3
            simp only [] at h3
            cases r3 with
            | error e =>
              simp only [Option.some.injEq]
              rintro rfl
              simp [h3, h2, h1]
            | ok u =>
              simp only []
              intro h
              have := ih _ h
              simpa [h3, h2, h1] using this
      · split
        · split
          · simp only [Option.some.injEq]
            rintro rfl
            simp [unrecoverable_error, h1]
          · simp only [Option.some.injEq]
            rintro rfl
            simp [h1]
        · split
          · split
            · simp only [Option.some.injEq]
              rintro rfl
              simp [unrecoverable_error, h1]
            · have h2 := BinaryStream.read_int32_failed st
              rcases hr4 : st.read_int32 with ⟨r2, st2⟩
              rw [hr4] at h2
              cases r2 with
              | error e =>
                simp only [reduceCtorEq, exists_false, false_and, Except.error.injEq,
                  false_or] at h2
                simp only [Option.some.injEq]
                rintro rfl
                simp [h2.1, h2.2]
              | ok u =>
                simp only [Except.ok.injEq, exists_eq', true_and, reduceCtorEq, false_and,
                  or_false] at h2
                simp only []
                split
                · simp only [Option.some.injEq]
                  rintro rfl
                  simp [unrecoverable_error, h2, h1]
                · simp only [Option.some.injEq]
                  rintro rfl
                  simp [h2, h1]
          · intro h
            have := ih _ h
            simpa [h1] using this

theorem BinaryStream.read_int32_append (st : BinaryStream) (bytes rest : List Nat)
    (hlen : bytes.length = 4) (hp : st.pending = bytes ++ rest) :
    st.read_int32 = ⟨.ok (int32_of_bits (decodeLE bytes)), { st with pending := rest }⟩ := by
  have h4 : 4 ≤ st.pending.length := by simp [hp, hlen]
  rw [BinaryStream.read_int32, BinaryStream.read_arith_of_le _ 4 h4]
  have e1 : st.pending.take 4 = bytes := by rw [hp, ← hlen]; simp
  have e2 : st.pending.drop 4 = rest := by rw [hp, ← hlen]; simp
  simp [e1, e2]

/-- C10: let the first four bytes on the worker's channel be `bytes`, read by
`run()` as an `int`.  (1) If that integer differs from the magic number, `run()`
throws the `std::runtime_error` "Client sent the wrong magic number", however
many commands it was allowed to take, and the session is as before except that
exactly those four bytes have been consumed: no command tag has been read, no
byte has been written, the record of engine calls is unchanged and
`can_send_reply` is untouched.  (2) If it equals the magic number, `run()` goes
on with the command loop on the remaining bytes, whose first action is to read
the one-byte command tag: with nothing left that read throws
`stream_exception`, and otherwise the loop dispatches on the byte read. -/
theorem C10_run_checks_magic_number {E V : Type} (K : Constants) (env : Env E V)
    (s : RInsideServer E) (bytes rest : List Nat) (hlen : bytes.length = 4)
    (hp : s.stream.pending = bytes ++ rest) :
    (int32_of_bits (decodeLE bytes) ≠ K.RIS_MAGIC_NUMBER →
      ∀ fuel : Nat, run K env fuel s =
        some ⟨.error (.runtime_error (what "Client sent the wrong magic number")),
          { s with stream := { s.stream with pending := rest } }⟩) ∧
    (int32_of_bits (decodeLE bytes) = K.RIS_MAGIC_NUMBER →
      ∀ fuel : Nat,
        run K env fuel s = serve K env fuel { s with stream := { s.stream with pending := rest } } ∧
        run K env (fuel + 1) s =
          match rest with
          | [] =>
            some ⟨.error .stream_exception,
              { s with stream := { s.stream with pending := [], failed := true } }⟩
          | cmd :: rest1 =>
            dispatch K env (serve K env fuel) cmd
              { s with stream := { s.stream with pending := rest1 },
                       can_send_reply := true }) := by
  have hr := BinaryStream.read_int32_append s.stream bytes rest hlen hp
  constructor
  · intro hne fuel
    simp [run, hr, hne]
  · intro heq fuel
    have h1 : ∀ f, run K env f s
        = serve K env f { s with stream := { s.stream with pending := rest } } := by
      intro f
      simp [run, hr, heq]
    refine ⟨h1 fuel, ?_⟩
    rw [h1]
    cases rest with
    | nil =>
      simp [serve, BinaryStream.read_char_nil]
    | cons cmd rest1 =>
      have hc := BinaryStream.read_char_cons
        { s.stream with pending := cmd :: rest1 } cmd rest1 rfl
      simp only [] at hc
      simp [serve, hc, allowSendReply]

/-- Witness of C10: a worker that receives the integer 1 in place of the magic
number, followed by an Exit command, and a worker that receives the magic
number followed by an Exit command. -/
theorem C10_run_checks_magic_number_witness :
    run K0 exampleEnv 3 (freshServer [1, 0, 0, 0, 1]) =
      some ⟨.error (.runtime_error (what "Client sent the wrong magic number")),
        { freshServer [1, 0, 0, 0, 1] with
          stream := { (freshServer [1, 0, 0, 0, 1]).stream with pending := [1] } }⟩ ∧
    run K0 exampleEnv (0 + 1) (freshServer [1, 0, 73, 82, 1]) =
      dispatch K0 exampleEnv (serve K0 exampleEnv 0) 1
        { freshServer [1, 0, 73, 82, 1] with
          stream := { (freshServer [1, 0, 73, 82, 1]).stream with pending := [] },
          can_send_reply := true } :=
  ⟨(C10_run_checks_magic_number K0 exampleEnv (freshServer [1, 0, 0, 0, 1]) [1, 0, 0, 0] [1]
      rfl rfl).1 (by decide) 3,
    ((C10_run_checks_magic_number K0 exampleEnv (freshServer [1, 0, 73, 82, 1]) [1, 0, 73, 82]
      [1] rfl rfl).2 (by decide) 0).2⟩

/-! ## The worker: unknown commands -/

theorem serve_of_tag {E V : Type} (K : Constants) (env : Env E V) (fuel : Nat)
    (s : RInsideServer E) (cmd : Nat) (rest : List Nat)
    (hp : s.stream.pending = cmd :: rest) :
    serve K env (fuel + 1) s =
      dispatch K env (serve K env fuel) cmd
        { s with stream := { s.stream with pending := rest }, can_send_reply := true } := by
  simp [serve, BinaryStream.read_char_cons _ _ _ hp, allowSendReply]

/-- C17: when the byte that the command loop of `run()` reads as a command tag is
none of the eight command tags, the loop ends at once with the
`std::runtime_error` "Client sent unknown command".  Apart from the consumed
tag byte and the may-send flag raised by `allowSendReply()`, the session is as
it was: no byte has been written (so no reply, and no Error reply), the record
of engine calls is unchanged, and nothing after the tag has been read. -/
theorem C17_unknown_command_is_fatal {E V : Type} (K : Constants) (env : Env E V)
    (fuel : Nat) (s : RInsideServer E) (cmd : Nat) (rest : List Nat)
    (hp : s.stream.pending = cmd :: rest) (hcmd : cmd ∉ K.commandTags) :
    serve K env (fuel + 1) s =
      some ⟨.error (.runtime_error (what "Client sent unknown command")),
        { s with stream := { s.stream with pending := rest }, can_send_reply := true }⟩ := by
  rw [serve_of_tag K env fuel s cmd rest hp]
  simp only [Constants.commandTags, List.mem_cons, List.mem_singleton, not_or,
    List.not_mem_nil, or_false] at hcmd
  obtain ⟨h1, h2, h3, h4, h5, h6, h7, h8⟩ := hcmd
  simp [dispatch, h1, h2, h3, h4, h5, h6, h7, h8]

/-- Witness of C17: after the handshake the worker reads the byte 99. -/
theorem C17_unknown_command_is_fatal_witness :
    serve K0 exampleEnv (2 + 1) (freshServer [99, 1]) =
      some ⟨.error (.runtime_error (what "Client sent unknown command")),
        { freshServer [99, 1] with
          stream := { (freshServer [99, 1]).stream with pending := [1] },
          can_send_reply := true }⟩ :=
  C17_unknown_command_is_fatal K0 exampleEnv 2 (freshServer [99, 1]) 99 [1] rfl (by decide)

/-! ## The controller: destruction -/

/-- C18: the destructor of a controller session never throws.  It calls the write
primitive, once and with the Exit tag, exactly when `had_unrecoverable_error`
is false and `can_send_command` is true; if the channel accepts the byte, the
Exit tag is appended to what has been written, and if the write fails the
failure is swallowed and nothing is appended.  In every other state the stream
is left exactly as it was. -/
theorem C18_destructor_sends_exit_when_healthy (K : Constants) (s : RInsideClient) :
    (s.destroy K).result = .ok () ∧
    ((s.destroy K).state.wcalls = s.stream.wcalls + 1 ↔
      (s.had_unrecoverable_error = false ∧ s.can_send_command = true)) ∧
    (s.had_unrecoverable_error = false → s.can_send_command = true →
      (s.destroy K).state = (s.stream.write_char K.RIS_CMD_EXIT).state ∧
      (1 ≤ s.stream.wroom →
        (s.destroy K).state.written = s.stream.written ++ [K.RIS_CMD_EXIT % 256]) ∧
      (s.stream.wroom = 0 → (s.destroy K).state.written = s.stream.written)) ∧
    (¬(s.had_unrecoverable_error = false ∧ s.can_send_command = true) →
      (s.destroy K).state = s.stream) := by
  by_cases h : s.had_unrecoverable_error = false ∧ s.can_send_command = true
  · by_cases hroom : 1 ≤ s.stream.wroom
    · simp [RInsideClient.destroy, h, BinaryStream.write_char_of_room _ _ hroom]
      omega
    · have h0 : s.stream.wroom = 0 := by omega
      simp [RInsideClient.destroy, h, BinaryStream.write_char, BinaryStream.write_arith,
        BinaryStream.write, length_encodeLE, h0]
  · have e : s.destroy K = ⟨.ok (), s.stream⟩ := by
      simp only [RInsideClient.destroy, if_neg h]
    rw [e]
    refine ⟨rfl, ?_, ?_, fun _ => rfl⟩
    · constructor
      · intro h1; simp at h1
      · intro h1; exact absurd h1 h
    · intro h1 h2; exact absurd ⟨h1, h2⟩ h

/-- Witness of C18: a fresh session is destroyed. -/
theorem C18_destructor_sends_exit_when_healthy_witness :
    ((freshClient []).destroy K0).state.written
      = (freshClient []).stream.written ++ [K0.RIS_CMD_EXIT % 256] :=
  ((C18_destructor_sends_exit_when_healthy K0 (freshClient [])).2.2.1 rfl rfl).2.1
    (by decide)

/-! ## Integers on the wire -/

theorem int32_of_bits_int32_bits (v : Int) (h1 : -2 ^ 31 ≤ v) (h2 : v < 2 ^ 31) :
    int32_of_bits (int32_bits v) = v := by
  unfold int32_of_bits int32_bits
  norm_num at h1 h2 ⊢
  split <;> omega

theorem int32_bits_lt (v : Int) : int32_bits v < 2 ^ 32 := by
  unfold int32_bits
  norm_num
  omega

theorem BinaryStream.read_int32_encode (st : BinaryStream) (v : Int) (rest : List Nat)
    (h1 : -2 ^ 31 ≤ v) (h2 : v < 2 ^ 31)
    (hp : st.pending = encodeLE 4 (int32_bits v) ++ rest) :
    st.read_int32 = ⟨.ok v, { st with pending := rest }⟩ := by
  rw [BinaryStream.read_int32_append st _ rest (length_encodeLE 4 _) hp, decodeLE_encodeLE]
  have e : int32_bits v % 256 ^ 4 = int32_bits v :=
    Nat.mod_eq_of_lt (by have := int32_bits_lt v; norm_num at this ⊢; exact this)
  rw [e, int32_of_bits_int32_bits v h1 h2]

theorem write_ints_of_room (vs : List Int) (st : BinaryStream)
    (h : 4 * vs.length ≤ st.wroom) :
    write_ints vs st =
      ⟨.ok (), { st with written := st.written ++ (vs.map fun v => encodeLE 4 (int32_bits v)).flatten,
                         wroom := st.wroom - 4 * vs.length,
                         wcalls := st.wcalls + vs.length }⟩ := by
  induction vs generalizing st with
  | nil => simp [write_ints]
  | cons v vs ih =>
    simp only [List.length_cons] at h
    simp only [write_ints, BinaryStream.write_int32, BinaryStream.write_arith]
    rw [BinaryStream.write_of_room _ _ (by rw [length_encodeLE]; omega)]
    simp only []
    rw [ih _ (by simp only [length_encodeLE]; omega)]
    simp only [length_encodeLE, List.map_cons, List.flatten_cons, List.append_assoc,
      List.length_cons, Outcome.mk.injEq, true_and, BinaryStream.mk.injEq, and_true]
    omega

theorem read_ints_of_encoded (vs : List Int) (st : BinaryStream) (rest : List Nat)
    (hv : ∀ v ∈ vs, -2 ^ 31 ≤ v ∧ v < 2 ^ 31)
    (hp : st.pending = (vs.map fun v => encodeLE 4 (int32_bits v)).flatten ++ rest) :
    read_ints vs.length st = ⟨.ok vs, { st with pending := rest }⟩ := by
  induction vs generalizing st with
  | nil =>
    simp only [List.map_nil, List.flatten_nil, List.nil_append] at hp
    simp [read_ints, ← hp]
  | cons v vs ih =>
    have hv1 := hv v (List.mem_cons_self _ _)
    simp only [List.map_cons, List.flatten_cons, List.append_assoc] at hp
    simp only [List.length_cons, read_ints]
    rw [BinaryStream.read_int32_encode st v _ hv1.1 hv1.2 hp]
    simp only []
    rw [ih _ (fun u hu => hv u (List.mem_cons_of_mem _ hu)) rfl]

theorem BinaryStream.produced_write_arith (a : BinaryStream) (w v : Nat)
    (h : (a.write_arith w v).result = .ok ()) :
    a.produced (a.write_arith w v).state = encodeLE w v := by
  have hroom : (encodeLE w v).length ≤ a.wroom := (BinaryStream.write_ok_iff _ _).1 h
  simp [BinaryStream.produced, BinaryStream.write_arith, BinaryStream.write_of_room _ _ hroom]

theorem BinaryStream.round_trip_arith (a b : BinaryStream) (w v : Nat) (suffix : List Nat)
    (hv : v < 256 ^ w) (hw : (a.write_arith w v).result = .ok ())
    (hp : b.pending = a.produced (a.write_arith w v).state ++ suffix) :
    b.read_arith w = ⟨.ok v, { b with pending := suffix }⟩ ∧
      (a.produced (a.write_arith w v).state).length = w := by
  rw [BinaryStream.produced_write_arith a w v hw] at hp ⊢
  rw [BinaryStream.read_arith_append b w v suffix hp, Nat.mod_eq_of_lt hv, length_encodeLE]
  exact ⟨rfl, rfl⟩

theorem write_ints_room_of_ok (vs : List Int) (st : BinaryStream)
    (h : (write_ints vs st).result = .ok ()) : 4 * vs.length ≤ st.wroom := by
  induction vs generalizing st with
  | nil => simp
  | cons v vs ih =>
    by_cases hroom : 4 ≤ st.wroom
    · simp only [write_ints, BinaryStream.write_int32, BinaryStream.write_arith] at h
      rw [BinaryStream.write_of_room _ _ (by rw [length_encodeLE]; exact hroom)] at h
      have := ih _ h
      simp only [length_encodeLE] at this
      simp only [List.length_cons]
      omega
    · simp [write_ints, BinaryStream.write_int32, BinaryStream.write_arith,
        BinaryStream.write, length_encodeLE, hroom] at h

/-- C19: for each fixed-width integer type on the wire, `char`, `uint32_t`,
`size_t` and `int32_t` / `int`, and every value `v` of the type: when the
pending bytes of a channel are the bytes that `write(v)` produced, followed by
any suffix, `read<T>()` returns `v`, consumes exactly `sizeof(T)` bytes (1, 4,
8 and 4) and leaves the suffix pending.  Consequently the `int` values of any
list, written one after the other, are read back value for value in the same
order, again leaving the suffix. -/
theorem C19_integers_round_trip (a b : BinaryStream) (suffix : List Nat) :
    (∀ v : Nat, v < 256 → (a.write_char v).result = .ok () →
      b.pending = a.produced (a.write_char v).state ++ suffix →
      b.read_char = ⟨.ok v, { b with pending := suffix }⟩ ∧
      (a.produced (a.write_char v).state).length = 1) ∧
    (∀ v : Nat, v < 2 ^ 32 → (a.write_uint32 v).result = .ok () →
      b.pending = a.produced (a.write_uint32 v).state ++ suffix →
      b.read_uint32 = ⟨.ok v, { b with pending := suffix }⟩ ∧
      (a.produced (a.write_uint32 v).state).length = 4) ∧
    (∀ v : Nat, v < 2 ^ 64 → (a.write_size_t v).result = .ok () →
      b.pending = a.produced (a.write_size_t v).state ++ suffix →
      b.read_size_t = ⟨.ok v, { b with pending := suffix }⟩ ∧
      (a.produced (a.write_size_t v).state).length = 8) ∧
    (∀ v : Int, -2 ^ 31 ≤ v → v < 2 ^ 31 → (a.write_int32 v).result = .ok () →
      b.pending = a.produced (a.write_int32 v).state ++ suffix →
      b.read_int32 = ⟨.ok v, { b with pending := suffix }⟩ ∧
      (a.produced (a.write_int32 v).state).length = 4) ∧
    (∀ vs : List Int, (∀ v ∈ vs, -2 ^ 31 ≤ v ∧ v < 2 ^ 31) →
      (write_ints vs a).result = .ok () →
      b.pending = a.produced (write_ints vs a).state ++ suffix →
      read_ints vs.length b = ⟨.ok vs, { b with pending := suffix }⟩) := by
  refine ⟨?_, ?_, ?_, ?_, ?_⟩
  · intro v hv hw hp
    exact BinaryStream.round_trip_arith a b 1 v suffix (by simpa using hv) hw hp
  · intro v hv hw hp
    exact BinaryStream.round_trip_arith a b 4 v suffix (by norm_num at hv ⊢; exact hv) hw hp
  · intro v hv hw hp
    exact BinaryStream.round_trip_arith a b 8 v suffix (by norm_num at hv ⊢; exact hv) hw hp
  · intro v h1 h2 hw hp
    have hprod := BinaryStream.produced_write_arith a 4 (int32_bits v) hw
    rw [BinaryStream.write_int32] at hp ⊢
    rw [hprod] at hp ⊢
    exact ⟨BinaryStream.read_int32_encode b v suffix h1 h2 hp, length_encodeLE _ _⟩
  · intro vs hv hw hp
    by_cases hroom : 4 * vs.length ≤ a.wroom
    · rw [write_ints_of_room vs a hroom] at hp
      simp only [BinaryStream.produced, List.drop_left] at hp
      exact read_ints_of_encoded vs b suffix hv hp
    · exact absurd (write_ints_room_of_ok vs a hw) hroom

/-- Witness of C19: the values 2, 7 and 42 written as `int`s and read back. -/
theorem C19_integers_round_trip_witness :
    read_ints [2, 7, 42].length
        { pending := [2, 0, 0, 0, 7, 0, 0, 0, 42, 0, 0, 0, 9], written := [], wroom := 0,
          wcalls := 0, failed := false }
      = ⟨.ok [2, 7, 42],
          { pending := [9], written := [], wroom := 0, wcalls := 0, failed := false }⟩ :=
  (C19_integers_round_trip
    { pending := [], written := [5], wroom := 50, wcalls := 0, failed := false }
    { pending := [2, 0, 0, 0, 7, 0, 0, 0, 42, 0, 0, 0, 9], written := [], wroom := 0,
      wcalls := 0, failed := false } [9]).2.2.2.2 [2, 7, 42] (by decide) (by decide)
    (by decide)

/-! ## The worker: replies and dispatch -/

section WorkerFacts

variable {E V : Type}

theorem sendReply_of_ready (reply : Nat) (s : RInsideServer E)
    (h : s.can_send_reply = true) (hw : 1 ≤ s.stream.wroom) :
    sendReply reply s = ⟨.ok (), tagReplied reply s⟩ := by
  simp [sendReply, h, BinaryStream.write_char_of_room _ _ hw, tagReplied]

theorem sendReply_of_flag_down (reply : Nat) (s : RInsideServer E)
    (h : s.can_send_reply = false) :
    sendReply reply s =
      ⟨.error (.runtime_error (what "RInsideServer cannot send a reply at this time")), s⟩ := by
  simp [sendReply, h]

theorem CMD_CATCH_ok (K : Constants) (s : RInsideServer E) :
    CMD_CATCH K ⟨.ok (), s⟩ = ⟨.ok (), s⟩ := rfl

theorem CMD_CATCH_error (K : Constants) (e : Failure) (m : List Nat) (s : RInsideServer E)
    (he : e.std_what = some m) (h : s.can_send_reply = true)
    (hw : 9 + m.length ≤ s.stream.wroom) :
    CMD_CATCH K ⟨.error e, s⟩ = ⟨.ok (), errorReplied K m s⟩ := by
  simp only [CMD_CATCH, he]
  rw [sendReply_of_ready _ s h (by omega)]
  simp only [tagReplied]
  rw [BinaryStream.write_string_of_room _ _ (by simp only [sizeof_size_t]; omega)]
  simp only [errorReplied, sizeof_size_t, Nat.sub_sub, List.append_assoc, List.singleton_append,
    Outcome.mk.injEq, true_and, RInsideServer.mk.injEq, and_true, BinaryStream.mk.injEq]
  omega

theorem CMD_CATCH_error_flag_down (K : Constants) (e : Failure) (m : List Nat)
    (s : RInsideServer E) (he : e.std_what = some m) (h : s.can_send_reply = false) :
    CMD_CATCH K ⟨.error e, s⟩ =
      ⟨.error (.runtime_error (what "RInsideServer cannot send a reply at this time")), s⟩ := by
  simp only [CMD_CATCH, he]
  rw [sendReply_of_flag_down _ s h]

theorem dispatch_SETVALUE (K : Constants) (env : Env E V)
    (again : RInsideServer E → Option (Outcome (RInsideServer E) Unit)) (s : RInsideServer E)
    (hK : K.commandTagsDistinct) :
    dispatch K env again K.RIS_CMD_SETVALUE s = nextTurn again (cmd_SETVALUE K env s) := by
  simp only [Constants.commandTagsDistinct, Constants.commandTags, List.nodup_cons,
    List.mem_cons, List.mem_singleton, not_or] at hK
  have h1 : K.RIS_CMD_SETVALUE ≠ K.RIS_CMD_EXIT := fun h => hK.1.1 h.symm
  simp only [dispatch, h1, if_false, if_true]
  rfl

theorem dispatch_SETCALLBACK (K : Constants) (env : Env E V)
    (again : RInsideServer E → Option (Outcome (RInsideServer E) Unit)) (s : RInsideServer E)
    (hK : K.commandTagsDistinct) :
    dispatch K env again K.RIS_CMD_SETCALLBACK s = nextTurn again (cmd_SETCALLBACK K env s) := by
  simp only [Constants.commandTagsDistinct, Constants.commandTags, List.nodup_cons,
    List.mem_cons, List.mem_singleton, not_or] at hK
  have h1 : K.RIS_CMD_SETCALLBACK ≠ K.RIS_CMD_EXIT := fun h => hK.1.2.2.1 h.symm
  have h2 : K.RIS_CMD_SETCALLBACK ≠ K.RIS_CMD_SETVALUE := fun h => hK.2.1.2.1 h.symm
  have h3 : K.RIS_CMD_SETCALLBACK ≠ K.RIS_CMD_GETVALUE := fun h => hK.2.2.1.1 h.symm
  simp only [dispatch, h1, h2, h3, if_false, if_true]
  rfl

theorem dispatch_RUN (K : Constants) (env : Env E V)
    (again : RInsideServer E → Option (Outcome (RInsideServer E) Unit)) (s : RInsideServer E)
    (hK : K.commandTagsDistinct) :
    dispatch K env again K.RIS_CMD_RUN s =
      match cmd_RUN K env s with
      | none => none
      | some o => nextTurn again o := by
  simp only [Constants.commandTagsDistinct, Constants.commandTags, List.nodup_cons,
    List.mem_cons, List.mem_singleton, not_or] at hK
  have h1 : K.RIS_CMD_RUN ≠ K.RIS_CMD_EXIT := fun h => hK.1.2.2.2.1 h.symm
  have h2 : K.RIS_CMD_RUN ≠ K.RIS_CMD_SETVALUE := fun h => hK.2.1.2.2.1 h.symm
  have h3 : K.RIS_CMD_RUN ≠ K.RIS_CMD_GETVALUE := fun h => hK.2.2.1.2.1 h.symm
  have h4 : K.RIS_CMD_RUN ≠ K.RIS_CMD_SETCALLBACK := fun h => hK.2.2.2.1.1 h.symm
  simp only [dispatch, h1, h2, h3, h4, if_false, if_true]
  rfl

end WorkerFacts

/-! ## The worker: SetValue and GetValue -/

section WorkerFacts

variable {E V : Type}

theorem sexp_from_stream_of_unknown (env : Env E V) (s : RInsideServer E)
    (tag rest : List Nat) (hlen : tag.length = 4) (hp : s.stream.pending = tag ++ rest)
    (hreg : env.registry_sexp_from_stream (int32_of_bits (decodeLE tag)) = none) :
    sexp_from_stream env s =
      ⟨.error (.runtime_error (what "Unknown datatype in sexp_from_stream")),
        { s with stream := { s.stream with pending := rest } }⟩ := by
  simp [sexp_from_stream, BinaryStream.read_int32_append s.stream tag rest hlen hp, hreg]

theorem cmd_SETVALUE_of_unknown (K : Constants) (env : Env E V) (s : RInsideServer E)
    (name tag rest : List Nat) (hname : name.length < 2 ^ 64) (hlen : tag.length = 4)
    (hp : s.stream.pending = BinaryStream.string_bytes name ++ (tag ++ rest))
    (hreg : env.registry_sexp_from_stream (int32_of_bits (decodeLE tag)) = none) :
    cmd_SETVALUE K env s =
      ⟨.error (.runtime_error (what "Unknown datatype in sexp_from_stream")),
        { s with stream := { s.stream with pending := rest } }⟩ := by
  simp only [cmd_SETVALUE, BinaryStream.read_string_append s.stream name _ hname hp]
  rw [sexp_from_stream_of_unknown env _ tag rest hlen rfl hreg]

/-- C13 does not hold as stated: the worker with one registered type (`int`,
TypeTag -1) receives, after the handshake, a SetValue command for the name
"x" whose value carries the unregistered TypeTag 77, followed by an Exit
command.  `run()` ends with the `std::runtime_error` "Unknown datatype in
sexp_from_stream": it has written nothing, so no Error reply, and it has not
read the Exit command. -/
theorem C13_counterexample_unregistered_typetag :
    run K0 demoEnv 5
        (freshServer [1, 0, 73, 82, 2, 1, 0, 0, 0, 0, 0, 0, 0, 120, 77, 0, 0, 0, 1]) =
      some ⟨.error (.runtime_error (what "Unknown datatype in sexp_from_stream")),
        { freshServer [1] with can_send_reply := true }⟩ := by
  decide

/-- C13 as amended: when the value of a SetValue command carries a TypeTag that
has no registered decoder, `sexp_from_stream`, which `run()` calls before
`CMD_TRY`, throws the `std::runtime_error` "Unknown datatype in
sexp_from_stream" and `run()` ends with that failure.  The command tag, the
name and the TypeTag have been consumed and the may-send flag is up; nothing
has been written (no Error reply), the record of engine calls is unchanged,
and no further command is read. -/
theorem C13_unregistered_typetag_is_fatal {E V : Type} (K : Constants) (env : Env E V)
    (hK : K.commandTagsDistinct) (fuel : Nat) (s : RInsideServer E)
    (name tag rest : List Nat) (hname : name.length < 2 ^ 64) (hlen : tag.length = 4)
    (hp : s.stream.pending
      = K.RIS_CMD_SETVALUE :: (BinaryStream.string_bytes name ++ (tag ++ rest)))
    (hreg : env.registry_sexp_from_stream (int32_of_bits (decodeLE tag)) = none) :
    serve K env (fuel + 1) s =
      some ⟨.error (.runtime_error (what "Unknown datatype in sexp_from_stream")),
        { s with stream := { s.stream with pending := rest }, can_send_reply := true }⟩ := by
  rw [serve_of_tag K env fuel s _ _ hp, dispatch_SETVALUE K env _ _ hK,
    cmd_SETVALUE_of_unknown K env _ name tag rest hname hlen rfl hreg]
  rfl

/-- Witness of C13 as amended: the command loop of the example worker reads a
SetValue command with the TypeTag 77. -/
theorem C13_unregistered_typetag_is_fatal_witness :
    serve K0 demoEnv (4 + 1)
        (freshServer [2, 1, 0, 0, 0, 0, 0, 0, 0, 120, 77, 0, 0, 0, 1]) =
      some ⟨.error (.runtime_error (what "Unknown datatype in sexp_from_stream")),
        { freshServer [2, 1, 0, 0, 0, 0, 0, 0, 0, 120, 77, 0, 0, 0, 1] with
          stream := { (freshServer [2, 1, 0, 0, 0, 0, 0, 0, 0, 120, 77, 0, 0, 0, 1]).stream with
                      pending := [1] },
          can_send_reply := true }⟩ :=
  C13_unregistered_typetag_is_fatal K0 demoEnv (by decide) 4
    (freshServer [2, 1, 0, 0, 0, 0, 0, 0, 0, 120, 77, 0, 0, 0, 1]) [120] [77, 0, 0, 0] [1]
    (by decide) rfl rfl rfl

end WorkerFacts

section WorkerFacts

variable {E V : Type}

end WorkerFacts

/-! ## The worker: SetCallback and the callback stub -/

section WorkerFacts

variable {E V : Type}

theorem paramcount_cons (r : Int) (ps : List Int) (h : ps.length < 2 ^ 64) :
    paramcount (r :: ps) = ps.length := by
  unfold paramcount
  simp only [List.length_cons]
  have hN : 0 < 2 ^ 64 := Nat.pow_pos (by decide)
  generalize 2 ^ 64 = N at h hN
  have e : ps.length + 1 + N - 1 = ps.length + N := by omega
  rw [e, Nat.add_mod_right, Nat.mod_eq_of_lt h]

theorem sendArguments_eq_sendEach (env : Env E V) (args : Nat → V) (r : Int)
    (sent todo : List Int) (s : RInsideServer E) :
    sendArguments env (r :: (sent ++ todo)) args sent.length todo.length s
      = sendEach env args todo sent.length s := by
  induction todo generalizing sent s with
  | nil => simp [sendArguments, sendEach]
  | cons p todo ih =>
    have hget : (r :: (sent ++ p :: todo)).getD (sent.length + 1) 0 = p := by
      rw [List.getD_cons_succ, List.getD_eq_getElem?_getD,
        List.getElem?_append_right (le_refl _)]
      simp
    simp only [List.length_cons, sendArguments, sendEach, hget]
    have := fun s1 => ih (sent ++ [p]) s1
    simp only [List.append_assoc, List.singleton_append, List.length_append,
      List.length_singleton] at this
    simp only [this]

end WorkerFacts

section WorkerFacts

variable {E V : Type}

theorem stub_call_of_ready (K : Constants) (env : Env E V) (callback_id : Nat) (r : Int)
    (ps : List Int) (args : Nat → V) (s : RInsideServer E) (hn : ps.length < 2 ^ 64)
    (hflag : s.can_send_reply = true) (hw : 5 ≤ s.stream.wroom) :
    CppFunctionForRInsideServer.call K env callback_id (r :: ps) args s =
      match sendEach env args ps 0 (callbackInvoked K callback_id s) with
      | ⟨.error e, s3⟩ => ⟨.error e, s3⟩
      | ⟨.ok _, s3⟩ =>
        match sexp_from_stream env s3 with
        | ⟨.error e, s4⟩ => ⟨.error e, s4⟩
        | ⟨.ok result, s4⟩ => ⟨.ok result, allowSendReply s4⟩ := by
  have hsend := sendArguments_eq_sendEach env args r [] ps
  simp only [List.nil_append, List.length_nil] at hsend
  unfold CppFunctionForRInsideServer.call
  rw [sendReply_of_ready _ s hflag (by omega), paramcount_cons r ps hn]
  simp only [tagReplied, BinaryStream.write_uint32, BinaryStream.write_arith]
  rw [BinaryStream.write_of_room _ _ (by simp only [length_encodeLE]; omega)]
  simp only [hsend, length_encodeLE]
  simp only [callbackInvoked, List.append_assoc, List.singleton_append, Nat.sub_sub]

end WorkerFacts

section WorkerFacts

variable {E V : Type}

theorem sexp_from_stream_of_registered (env : Env E V) (s : RInsideServer E)
    (tag rest : List Nat) (decode : BinaryStream → Outcome BinaryStream V)
    (hlen : tag.length = 4) (hp : s.stream.pending = tag ++ rest)
    (hreg : env.registry_sexp_from_stream (int32_of_bits (decodeLE tag)) = some decode) :
    sexp_from_stream env s =
      ⟨(decode { s.stream with pending := rest }).result,
        { s with stream := (decode { s.stream with pending := rest }).state }⟩ := by
  simp [sexp_from_stream, BinaryStream.read_int32_append s.stream tag rest hlen hp, hreg]

/-- C15 does not hold as stated: the stub with callback id 7 and one `int`
parameter is invoked on the example worker.  When the channel delivers a Value
reply (tag 12, TypeTag -1, value 10), the stub reads the tag and the first
three bytes of the TypeTag as a TypeTag, finds no decoder and raises "Unknown
datatype in sexp_from_stream" in place of returning 10.  When the channel
delivers an Error reply (tag 13, the string "no"), it raises the same failure,
which does not carry the message.  It returns 10 when the TypeTag -1 and the
value 10 arrive with no reply tag in front. -/
theorem C15_counterexample_nested_reply_has_no_tag :
    (CppFunctionForRInsideServer.call K0 demoEnv 7 [-1, -1] (fun _ => 5)
        { freshServer [12, 255, 255, 255, 255, 10, 0, 0, 0] with can_send_reply := true }).result
      = .error (.runtime_error (what "Unknown datatype in sexp_from_stream")) ∧
    (CppFunctionForRInsideServer.call K0 demoEnv 7 [-1, -1] (fun _ => 5)
        { freshServer [13, 2, 0, 0, 0, 0, 0, 0, 0, 110, 111] with
          can_send_reply := true }).result
      = .error (.runtime_error (what "Unknown datatype in sexp_from_stream")) ∧
    (CppFunctionForRInsideServer.call K0 demoEnv 7 [-1, -1] (fun _ => 5)
        { freshServer [255, 255, 255, 255, 10, 0, 0, 0] with can_send_reply := true }).result
      = .ok 10 := by
  decide

/-- C15 as amended: when the stub installed by SetCallback is invoked by engine
code, after writing CallbackInvoke, the callback id and the arguments it reads
from the channel a nested result that begins with a four-byte TypeTag, with no
Reply tag in front.  (1) If a decoder is registered for the TypeTag and
decodes a value, that value becomes the stub's return value and the may-send
flag is raised again.  (2) If the decoder fails, its failure is raised by the
stub.  (3) If no decoder is registered for the TypeTag, the stub raises the
`std::runtime_error` "Unknown datatype in sexp_from_stream".  An Error reply is
not recognised. -/
theorem C15_stub_reads_typed_value {E V : Type} (K : Constants) (env : Env E V)
    (callback_id : Nat) (r : Int) (ps : List Int) (args : Nat → V) (s s3 : RInsideServer E)
    (tag rest : List Nat) (hn : ps.length < 2 ^ 64) (hflag : s.can_send_reply = true)
    (hw : 5 ≤ s.stream.wroom)
    (hargs : sendEach env args ps 0 (callbackInvoked K callback_id s) = ⟨.ok (), s3⟩)
    (hlen : tag.length = 4) (hp : s3.stream.pending = tag ++ rest) :
    (∀ (decode : BinaryStream → Outcome BinaryStream V) (v : V) (st4 : BinaryStream),
      env.registry_sexp_from_stream (int32_of_bits (decodeLE tag)) = some decode →
      decode { s3.stream with pending := rest } = ⟨.ok v, st4⟩ →
      CppFunctionForRInsideServer.call K env callback_id (r :: ps) args s =
        ⟨.ok v, { s3 with stream := st4, can_send_reply := true }⟩) ∧
    (∀ (decode : BinaryStream → Outcome BinaryStream V) (e : Failure) (st4 : BinaryStream),
      env.registry_sexp_from_stream (int32_of_bits (decodeLE tag)) = some decode →
      decode { s3.stream with pending := rest } = ⟨.error e, st4⟩ →
      CppFunctionForRInsideServer.call K env callback_id (r :: ps) args s =
        ⟨.error e, { s3 with stream := st4 }⟩) ∧
    (env.registry_sexp_from_stream (int32_of_bits (decodeLE tag)) = none →
      CppFunctionForRInsideServer.call K env callback_id (r :: ps) args s =
        ⟨.error (.runtime_error (what "Unknown datatype in sexp_from_stream")),
          { s3 with stream := { s3.stream with pending := rest } }⟩) := by
  have hcall := stub_call_of_ready K env callback_id r ps args s hn hflag hw
  rw [hargs] at hcall
  simp only [] at hcall
  refine ⟨?_, ?_, ?_⟩
  · intro decode v st4 hreg hdec
    rw [hcall, sexp_from_stream_of_registered env s3 tag rest decode hlen hp hreg, hdec]
    rfl
  · intro decode e st4 hreg hdec
    rw [hcall, sexp_from_stream_of_registered env s3 tag rest decode hlen hp hreg, hdec]
  · intro hreg
    rw [hcall, sexp_from_stream_of_unknown env s3 tag rest hlen hp hreg]

/-- Witness of C15 as amended: the stub with callback id 7 and one `int` parameter
receives the TypeTag -1 and the value 10. -/
theorem C15_stub_reads_typed_value_witness :
    CppFunctionForRInsideServer.call K0 demoEnv 7 (-1 :: [-1]) (fun _ => 5)
        { freshServer [255, 255, 255, 255, 10, 0, 0, 0] with can_send_reply := true } =
      ⟨.ok 10,
        { ({ freshServer [255, 255, 255, 255, 10, 0, 0, 0] with
              stream := { pending := [255, 255, 255, 255, 10, 0, 0, 0],
                          written := [10, 7, 0, 0, 0, 5, 0, 0, 0], wroom := 91, wcalls := 3,
                          failed := false },
              can_send_reply := false } : RInsideServer Unit) with
          stream := { pending := [], written := [10, 7, 0, 0, 0, 5, 0, 0, 0], wroom := 91,
                      wcalls := 3, failed := false },
          can_send_reply := true }⟩ :=
  (C15_stub_reads_typed_value K0 demoEnv 7 (-1) [-1] (fun _ => 5)
    { freshServer [255, 255, 255, 255, 10, 0, 0, 0] with can_send_reply := true }
    { freshServer [255, 255, 255, 255, 10, 0, 0, 0] with
      stream := { pending := [255, 255, 255, 255, 10, 0, 0, 0],
                  written := [10, 7, 0, 0, 0, 5, 0, 0, 0], wroom := 91, wcalls := 3,
                  failed := false },
      can_send_reply := false }
    [255, 255, 255, 255] [10, 0, 0, 0] (by decide) rfl (by decide) (by decide) rfl rfl).1
    demoDecodeInt 10
    { pending := [], written := [10, 7, 0, 0, 0, 5, 0, 0, 0], wroom := 91, wcalls := 3,
      failed := false }
    rfl (by decide)

end WorkerFacts

/-! ## Facts about `find` -/

theorem find_from_some (d : List Nat) (suf : List Nat) (i j : Nat)
    (h : find_from d suf i = some j) :
    i ≤ j ∧ j - i ≤ suf.length ∧ d <+: suf.drop (j - i) ∧
      ∀ k, k < j - i → ¬ d <+: suf.drop k := by
  induction suf generalizing i with
  | nil =>
    simp only [find_from] at h
    split at h
    · rename_i hd
      simp only [Option.some.injEq] at h
      subst h
      simp [hd]
    · cases h
  | cons c cs ih =>
    simp only [find_from] at h
    split at h
    · rename_i hpre
      simp only [Option.some.injEq] at h
      subst h
      simp [hpre]
    · rename_i hpre
      obtain ⟨h1, h2, h3, h4⟩ := ih (i + 1) h
      have e : j - i = (j - (i + 1)) + 1 := by omega
      refine ⟨by omega, by simp only [List.length_cons]; omega, ?_, ?_⟩
      · rw [e, List.drop_succ_cons]; exact h3
      · intro k hk
        cases k with
        | zero => simpa using hpre
        | succ k =>
          rw [List.drop_succ_cons]
          exact h4 k (by omega)

theorem find_from_none (d : List Nat) (suf : List Nat) (i : Nat)
    (h : find_from d suf i = none) : ∀ k, ¬ d <+: suf.drop k := by
  induction suf generalizing i with
  | nil =>
    simp only [find_from] at h
    split at h
    · cases h
    · rename_i hd
      intro k hk
      simp only [List.drop_nil, List.prefix_nil] at hk
      exact hd hk
  | cons c cs ih =>
    simp only [find_from] at h
    split at h
    · cases h
    · rename_i hpre
      intro k
      cases k with
      | zero => simpa using hpre
      | succ k =>
        rw [List.drop_succ_cons]
        exact ih (i + 1) h k

theorem not_infix_of_no_prefix (d l : List Nat) (h : ∀ k, ¬ d <+: l.drop k) : ¬ d <:+: l := by
  rintro ⟨s, t, hst⟩
  apply h s.length
  rw [← hst, List.append_assoc, List.drop_left]
  exact List.prefix_append d t

theorem not_infix_take (d l : List Nat) (n : Nat) (h : ∀ k, k < n → ¬ d <+: l.drop k)
    (hd : d ≠ []) : ¬ d <:+: l.take n := by
  rintro ⟨s, t, hst⟩
  have hlen : (s ++ d ++ t).length ≤ n := by
    rw [hst]; exact List.length_take_le n l
  have hdpos : 0 < d.length := List.length_pos.2 hd
  simp only [List.length_append] at hlen
  apply h s.length (by omega)
  have hl : l = s ++ d ++ t ++ l.drop n := by
    rw [hst, List.take_append_drop]
  rw [hl, List.append_assoc, List.append_assoc, List.drop_left]
  exact List.prefix_append d _

/-! ## Facts about the segments of a script -/

theorem what_delimiter : what "\n\n" = [10, 10] := by decide

theorem segmentsFrom_cons (c : Nat) (rest current : List Nat) :
    segmentsFrom (c :: rest) current =
      if [10, 10] <+: c :: rest then current.reverse :: segmentsFrom (rest.drop 1) []
      else segmentsFrom rest (c :: current) := by
  by_cases hc : c = 10
  · subst hc
    cases rest with
    | nil => simp [segmentsFrom]
    | cons c2 rest2 =>
      by_cases hc2 : c2 = 10
      · subst hc2
        simp [segmentsFrom]
      · have hne : ¬ [10, 10] <+: 10 :: c2 :: rest2 := by
          simp [List.cons_prefix_cons, Ne.symm hc2]
        rw [if_neg hne, segmentsFrom]
        intro r h1 h2
        simp_all
  · have hne : ¬ [10, 10] <+: c :: rest := by
      simp [List.cons_prefix_cons, Ne.symm hc]
    rw [if_neg hne, segmentsFrom]
    intro r h1 h2
    simp_all

theorem segmentsFrom_of_find_none (suf current : List Nat) (i : Nat)
    (h : find_from [10, 10] suf i = none) :
    segmentsFrom suf current = [current.reverse ++ suf] := by
  induction suf generalizing i current with
  | nil => simp [segmentsFrom]
  | cons c cs ih =>
    simp only [find_from] at h
    split at h
    · cases h
    · rename_i hpre
      rw [segmentsFrom_cons, if_neg hpre, ih (c :: current) (i + 1) h]
      simp

theorem segmentsFrom_of_find_some (suf current : List Nat) (i j : Nat)
    (h : find_from [10, 10] suf i = some j) :
    segmentsFrom suf current =
      (current.reverse ++ suf.take (j - i)) :: segmentsFrom (suf.drop (j - i + 2)) [] := by
  induction suf generalizing i current with
  | nil =>
    simp [find_from] at h
  | cons c cs ih =>
    simp only [find_from] at h
    split at h
    · rename_i hpre
      simp only [Option.some.injEq] at h
      subst h
      rw [segmentsFrom_cons, if_pos hpre]
      simp
    · rename_i hpre
      have hij := (find_from_some _ _ _ _ h).1
      rw [segmentsFrom_cons, if_neg hpre, ih (c :: current) (i + 1) h]
      have e : j - i = (j - (i + 1)) + 1 := by omega
      rw [e]
      simp

theorem segments_ne_nil (l : List Nat) : segments l ≠ [] := by
  unfold segments
  cases h : find_from [10, 10] l 0 with
  | none => rw [segmentsFrom_of_find_none l [] 0 h]; simp
  | some j => rw [segmentsFrom_of_find_some l [] 0 j h]; simp

theorem intercalate_cons_of_ne_nil (sep x : List Nat) (xs : List (List Nat)) (h : xs ≠ []) :
    List.intercalate sep (x :: xs) = x ++ sep ++ List.intercalate sep xs := by
  cases xs with
  | nil => exact absurd rfl h
  | cons y ys => simp [List.intercalate, List.intersperse]

theorem segments_spec (n : Nat) (l : List Nat) (hn : l.length ≤ n) :
    List.intercalate [10, 10] (segments l) = l ∧
      ∀ seg ∈ segments l, ¬ [10, 10] <:+: seg := by
  induction n generalizing l with
  | zero =>
    have hl : l = [] := List.length_eq_zero.1 (by omega)
    subst hl
    simp [segments, segmentsFrom, List.intercalate]
  | succ n ih =>
    cases h : find_from [10, 10] l 0 with
    | none =>
      have hs : segments l = [l] := by
        unfold segments; rw [segmentsFrom_of_find_none l [] 0 h]; simp
      rw [hs]
      refine ⟨by simp [List.intercalate], ?_⟩
      intro seg hseg
      simp only [List.mem_singleton] at hseg
      subst hseg
      exact not_infix_of_no_prefix _ _ (find_from_none _ _ _ h)
    | some j =>
      obtain ⟨_, hj, hpre, hmin⟩ := find_from_some _ _ _ _ h
      simp only [Nat.sub_zero] at hj hpre hmin
      have hs : segments l = l.take j :: segments (l.drop (j + 2)) := by
        unfold segments; rw [segmentsFrom_of_find_some l [] 0 j h]; simp
      have hdrop : l.drop j = [10, 10] ++ l.drop (j + 2) := by
        obtain ⟨t, ht⟩ := hpre
        rw [← ht]
        have : l.drop (j + 2) = (l.drop j).drop 2 := by rw [List.drop_drop]
        rw [this, ← ht]
        simp
      have hlen : (l.drop (j + 2)).length ≤ n := by
        have : (l.drop j).length = 2 + (l.drop (j + 2)).length := by
          rw [hdrop]; simp; omega
        simp only [List.length_drop] at this ⊢
        omega
      obtain ⟨ih1, ih2⟩ := ih (l.drop (j + 2)) hlen
      rw [hs]
      refine ⟨?_, ?_⟩
      · rw [intercalate_cons_of_ne_nil _ _ _ (segments_ne_nil _), ih1, List.append_assoc,
          ← hdrop, List.take_append_drop]
      · intro seg hseg
        simp only [List.mem_cons] at hseg
        rcases hseg with rfl | hseg
        · exact not_infix_take _ _ _ hmin (by simp)
        · exact ih2 seg hseg

section WorkerFacts

variable {E V : Type}

theorem runSource_eq_from (K : Constants) (env : Env E V) (source : List Nat) (type : Int)
    (s : RInsideServer E) :
    runSource K env source type s = runSourceFrom K env source type (source.length + 1) 0 s :=
  rfl

theorem cons_eq_append_singleton {α : Type} (x : α) (rest init : List α) (last : α)
    (hrest : rest ≠ []) (h : x :: rest = init ++ [last]) :
    ∃ init1, init = x :: init1 ∧ rest = init1 ++ [last] := by
  cases init with
  | nil =>
    simp only [List.nil_append, List.cons.injEq] at h
    exact absurd h.2 hrest
  | cons y init1 =>
    simp only [List.cons_append, List.cons.injEq] at h
    exact ⟨init1, by rw [h.1], h.2⟩

theorem runSourceFrom_eq_evalInOrder (K : Constants) (env : Env E V) (source : List Nat)
    (type : Int) (fuel start : Nat) (s : RInsideServer E) (effects : List (List Nat))
    (last : List Nat) (hstart : start ≤ source.length) (hfuel : source.length - start < fuel)
    (hseg : segments (source.drop start) = effects ++ [last]) :
    runSourceFrom K env source type fuel start s =
      some (evalInOrder K env type effects last s) := by
  induction fuel generalizing start s effects with
  | zero => omega
  | succ fuel ih =>
    have hfind : find source [10, 10] start
        = find_from [10, 10] (source.drop start) start := by
      simp [find, hstart]
    cases h : find_from [10, 10] (source.drop start) start with
    | none =>
      have hs : segments (source.drop start) = [source.drop start] := by
        unfold segments; rw [segmentsFrom_of_find_none _ [] start h]; simp
      rw [hs] at hseg
      have heff : effects = [] ∧ last = source.drop start := by
        cases effects with
        | nil => simpa using hseg.symm
        | cons x xs =>
          simp only [List.cons_append, List.cons.injEq] at hseg
          have := congrArg List.length hseg.2
          simp at this
      obtain ⟨rfl, rfl⟩ := heff
      simp only [runSourceFrom, evalSegments, what_delimiter, hfind, h, evalInOrder,
        evalEffects]
      split
      · rfl
      · split <;> rfl
    | some j =>
      obtain ⟨hij, hj, hpre, _⟩ := find_from_some _ _ _ _ h
      have hs : segments (source.drop start) =
          (source.drop start).take (j - start) :: segments (source.drop (j + 2)) := by
        unfold segments
        rw [segmentsFrom_of_find_some _ [] start j h]
        have e : start + (j - start + 2) = j + 2 := by omega
        simp only [List.reverse_nil, List.nil_append, List.drop_drop, e]
      rw [hs] at hseg
      obtain ⟨effects1, rfl, hseg1⟩ :=
        cons_eq_append_singleton _ _ _ _ (segments_ne_nil _) hseg
      have hj2 : j + 2 ≤ source.length := by
        have := hpre.length_le
        simp only [List.length_cons, List.length_nil, List.length_drop] at this hj
        omega
      have hrec := fun s1 => ih (j + 2) s1 effects1 hj2 (by omega) hseg1
      simp only [runSourceFrom, evalSegments, what_delimiter, hfind, h, evalInOrder,
        evalEffects, List.length_cons, List.length_nil]
      rcases parseEvalQ K env ((source.drop start).take (j - start)) s with ⟨_ | u, s1⟩
      · rfl
      · have := hrec s1
        simp only [runSourceFrom, evalInOrder] at this
        exact this

end WorkerFacts

/-! ## The worker: RunScript -/

section WorkerFacts

variable {E V : Type}

theorem runSource_eq_evalInOrder (K : Constants) (env : Env E V) (source : List Nat)
    (type : Int) (s : RInsideServer E) (effects : List (List Nat)) (last : List Nat)
    (hseg : segments source = effects ++ [last]) :
    runSource K env source type s = some (evalInOrder K env type effects last s) := by
  rw [runSource_eq_from]
  exact runSourceFrom_eq_evalInOrder K env source type _ 0 s effects last (Nat.zero_le _)
    (by omega) (by simpa using hseg)

theorem segments_eq_append_singleton (source : List Nat) :
    ∃ effects last, segments source = effects ++ [last] := by
  have h := segments_ne_nil source
  exact ⟨(segments source).dropLast, (segments source).getLast h,
    (List.dropLast_append_getLast h).symm⟩

theorem cmd_RUN_of_payload (K : Constants) (env : Env E V) (s : RInsideServer E)
    (code source tag rest : List Nat) (hcode : code.length < 2 ^ 64) (hlen : tag.length = 4)
    (hp : s.stream.pending = BinaryStream.string_bytes code ++ (tag ++ rest))
    (hnorm : replace_all code (what "\r\n") (what "\n") = some source) :
    cmd_RUN K env s =
      match runSource K env source (int32_of_bits (decodeLE tag))
          { s with stream := { s.stream with pending := rest } } with
      | none => none
      | some block => some (CMD_CATCH K block) := by
  simp only [cmd_RUN, BinaryStream.read_string_append s.stream code _ hcode hp, hnorm]
  rw [BinaryStream.read_int32_append _ tag rest hlen rfl]

/-- C11: every script source (line endings already normalised) is cut by the
RunScript branch at the left-to-right non-overlapping occurrences of the
delimiter "\n\n": with `k` occurrences there are `k + 1` segments, the first
`k` of them `effects` and then `last`.  The segments joined with "\n\n" give
the source back, and no segment contains "\n\n".  The block of the branch is
the evaluation in order: the segments of `effects` are evaluated for effect
only (`parseEvalQ`), one after the other, then `last` is evaluated for its
value (`parseEval`), and then the reply is made; the first failing evaluation
ends the block.  The loops of the block always come to an end.  (2) For a
RunScript payload with code `code` and result type `t`, the branch is this
block, run on the normalised code once the whole payload has been read, inside
`CMD_TRY` .. `CMD_CATCH`. -/
theorem C11_runScript_evaluates_segments_in_order {E V : Type} (K : Constants)
    (env : Env E V) (source : List Nat) :
    ∃ (effects : List (List Nat)) (last : List Nat),
      segments source = effects ++ [last] ∧
      List.intercalate (what "\n\n") (segments source) = source ∧
      (∀ seg ∈ segments source, ¬ what "\n\n" <:+: seg) ∧
      (∀ (type : Int) (s : RInsideServer E),
        runSource K env source type s = some (evalInOrder K env type effects last s)) ∧
      (∀ (s : RInsideServer E) (code tag rest : List Nat), code.length < 2 ^ 64 →
        tag.length = 4 →
        s.stream.pending = BinaryStream.string_bytes code ++ (tag ++ rest) →
        replace_all code (what "\r\n") (what "\n") = some source →
        cmd_RUN K env s =
          some (CMD_CATCH K (evalInOrder K env (int32_of_bits (decodeLE tag)) effects last
            { s with stream := { s.stream with pending := rest } }))) := by
  obtain ⟨effects, last, hseg⟩ := segments_eq_append_singleton source
  obtain ⟨h1, h2⟩ := segments_spec source.length source (le_refl _)
  refine ⟨effects, last, hseg, by rw [what_delimiter]; exact h1,
    by rw [what_delimiter]; exact h2,
    fun type s => runSource_eq_evalInOrder K env source type s effects last hseg, ?_⟩
  intro s code tag rest hcode hlen hp hnorm
  rw [cmd_RUN_of_payload K env s code source tag rest hcode hlen hp hnorm,
    runSource_eq_evalInOrder K env source _ _ effects last hseg]

/-- Witness of C11: the source "a\n\nb\n\n\nc", whose segments are "a", "b" and
"\nc", received by the example worker with result type 0. -/
theorem C11_runScript_evaluates_segments_in_order_witness :
    segments [97, 10, 10, 98, 10, 10, 10, 99] = [[97], [98]] ++ [[10, 99]] ∧
    ∃ (effects : List (List Nat)) (last : List Nat),
      segments [97, 10, 10, 98, 10, 10, 10, 99] = effects ++ [last] ∧
      List.intercalate (what "\n\n") (segments [97, 10, 10, 98, 10, 10, 10, 99])
        = [97, 10, 10, 98, 10, 10, 10, 99] ∧
      (∀ seg ∈ segments [97, 10, 10, 98, 10, 10, 10, 99], ¬ what "\n\n" <:+: seg) ∧
      (∀ (type : Int) (s : RInsideServer Unit),
        runSource K0 demoEnv [97, 10, 10, 98, 10, 10, 10, 99] type s
          = some (evalInOrder K0 demoEnv type effects last s)) ∧
      (∀ (s : RInsideServer Unit) (code tag rest : List Nat), code.length < 2 ^ 64 →
        tag.length = 4 →
        s.stream.pending = BinaryStream.string_bytes code ++ (tag ++ rest) →
        replace_all code (what "\r\n") (what "\n") = some [97, 10, 10, 98, 10, 10, 10, 99] →
        cmd_RUN K0 demoEnv s =
          some (CMD_CATCH K0 (evalInOrder K0 demoEnv (int32_of_bits (decodeLE tag)) effects
            last { s with stream := { s.stream with pending := rest } }))) :=
  ⟨by decide,
    C11_runScript_evaluates_segments_in_order K0 demoEnv [97, 10, 10, 98, 10, 10, 10, 99]⟩

end WorkerFacts

/-! ## The worker: failures and the Ok reply of RunScript -/

section WorkerFacts

variable {E V : Type}

theorem evalEffects_append (K : Constants) (env : Env E V) (done rest : List (List Nat))
    (s : RInsideServer E) :
    evalEffects K env (done ++ rest) s =
      match evalEffects K env done s with
      | ⟨.error e, s1⟩ => ⟨.error e, s1⟩
      | ⟨.ok _, s1⟩ => evalEffects K env rest s1 := by
  induction done generalizing s with
  | nil => rfl
  | cons seg done ih =>
    simp only [List.cons_append, evalEffects]
    rcases parseEvalQ K env seg s with ⟨_ | u, s1⟩
    · rfl
    · exact ih s1

theorem evalInOrder_of_effect_failure (K : Constants) (env : Env E V) (type : Int)
    (done later : List (List Nat)) (seg last : List Nat) (s s2 s3 : RInsideServer E)
    (e : Failure) (hdone : evalEffects K env done s = ⟨.ok (), s2⟩)
    (hseg : parseEvalQ K env seg s2 = ⟨.error e, s3⟩) :
    evalInOrder K env type (done ++ seg :: later) last s = ⟨.error e, s3⟩ := by
  simp only [evalInOrder, evalEffects_append, hdone, evalEffects, hseg]

theorem evalInOrder_of_last_failure (K : Constants) (env : Env E V) (type : Int)
    (effects : List (List Nat)) (last : List Nat) (s s2 s3 : RInsideServer E)
    (e : Failure) (hdone : evalEffects K env effects s = ⟨.ok (), s2⟩)
    (hlast : parseEval K env last s2 = ⟨.error e, s3⟩) :
    evalInOrder K env type effects last s = ⟨.error e, s3⟩ := by
  simp only [evalInOrder, hdone, hlast]

theorem evalInOrder_of_success (K : Constants) (env : Env E V)
    (effects : List (List Nat)) (last : List Nat) (s s2 s3 : RInsideServer E) (v : V)
    (hdone : evalEffects K env effects s = ⟨.ok (), s2⟩)
    (hlast : parseEval K env last s2 = ⟨.ok v, s3⟩) :
    evalInOrder K env 0 effects last s = sendReply K.RIS_REPLY_OK s3 := by
  simp only [evalInOrder, hdone, hlast, if_true]

theorem serve_RUN (K : Constants) (env : Env E V) (hK : K.commandTagsDistinct) (fuel : Nat)
    (s : RInsideServer E) (code source tag rest : List Nat) (effects : List (List Nat))
    (last : List Nat) (hcode : code.length < 2 ^ 64) (hlen : tag.length = 4)
    (hp : s.stream.pending = K.RIS_CMD_RUN :: (BinaryStream.string_bytes code ++ (tag ++ rest)))
    (hnorm : replace_all code (what "\r\n") (what "\n") = some source)
    (hseg : segments source = effects ++ [last]) :
    serve K env (fuel + 1) s = nextTurn (serve K env fuel)
      (CMD_CATCH K (evalInOrder K env (int32_of_bits (decodeLE tag)) effects last
        { s with stream := { s.stream with pending := rest }, can_send_reply := true })) := by
  rw [serve_of_tag K env fuel s _ _ hp, dispatch_RUN K env _ _ hK,
    cmd_RUN_of_payload K env _ code source tag rest hcode hlen rfl hnorm,
    runSource_eq_evalInOrder K env source _ _ effects last hseg]

theorem serve_RUN_of_failure (K : Constants) (env : Env E V) (fuel : Nat)
    (s s3 : RInsideServer E) (e : Failure) (m : List Nat)
    (block : Outcome (RInsideServer E) Unit)
    (hserve : serve K env (fuel + 1) s = nextTurn (serve K env fuel) (CMD_CATCH K block))
    (hblock : block = ⟨.error e, s3⟩) (he : e.std_what = some m) :
    (s3.can_send_reply = true → 9 + m.length ≤ s3.stream.wroom →
      serve K env (fuel + 1) s = serve K env fuel (errorReplied K m s3)) ∧
    (s3.can_send_reply = false →
      serve K env (fuel + 1) s =
        some ⟨.error (.runtime_error (what "RInsideServer cannot send a reply at this time")),
          s3⟩) := by
  refine ⟨fun hflag hw => ?_, fun hflag => ?_⟩
  · rw [hserve, hblock, CMD_CATCH_error K e m s3 he hflag hw]
    rfl
  · rw [hserve, hblock, CMD_CATCH_error_flag_down K e m s3 he hflag]
    rfl

end WorkerFacts

/-- C12, as stated, fails: the example worker whose engine calls, on the line
`cb(5)`, a callback stub with a parameter of the unregistered TypeTag 99 reads
the RunScript command with the code "cb(5)" and result type 0, followed by an
Exit command.  Evaluating the only segment raises the `std::runtime_error`
"Error evaluating: cb(5)", which is no channel failure; but the stub had sent
the CallbackInvoke tag and the id 7 before it failed on the argument, so the
may-send flag is down, `sendReply(RIS_REPLY_ERROR)` in `CMD_CATCH` throws, and
`run()` ends with that failure: no Error reply has been written and the Exit
command is never read. -/
theorem C12_counterexample_failure_inside_callback :
    parseEval K0 callbackEnv (what "cb(5)")
        { freshServer [1] with can_send_reply := true } =
      ⟨.error (.runtime_error (what "Error evaluating: cb(5)")),
        { stream := { pending := [1], written := [10, 7, 0, 0, 0], wroom := 95, wcalls := 2,
                      failed := false },
          can_send_reply := false, R := (),
          calls := [.parseEval (what "cb(5)"), .callback 7] }⟩ ∧
    run K0 callbackEnv 5 (freshServer ([1, 0, 73, 82] ++ [5]
        ++ BinaryStream.string_bytes (what "cb(5)") ++ [0, 0, 0, 0] ++ [1])) =
      some ⟨.error (.runtime_error (what "RInsideServer cannot send a reply at this time")),
        { stream := { pending := [1], written := [10, 7, 0, 0, 0], wroom := 95, wcalls := 2,
                      failed := false },
          can_send_reply := false, R := (),
          calls := [.parseEval (what "cb(5)"), .callback 7] }⟩ ∧
    K0.RIS_REPLY_ERROR ∉ [10, 7, 0, 0, 0] := by
  refine ⟨by decide, by decide, by decide⟩

/-- C12 (amended): let the command loop of `run()` read a RunScript command whose
code, after line-ending normalisation, has the segments `effects` followed by
`last`.  (1) If the evaluation of a segment of `effects`, reached after the
segments `done` before it evaluated, throws a `std::exception` with message
`m`, or (2) if all of `effects` evaluated and the evaluation of `last` throws
one, then no further segment is evaluated and: when the may-send flag is still
up (no callback stub was left unfinished) and the channel accepts the reply,
the worker sends exactly one Error reply, the Error tag followed by the
encoded `m`, and the loop goes on with its next turn, which reads the next
command; when the may-send flag is down, `sendReply` throws and `run()` ends
with "RInsideServer cannot send a reply at this time", nothing having been
written after the failure.  (3) If every segment evaluates, the result type is
0, the may-send flag is up and the channel accepts one byte, the worker sends
exactly one Ok reply tag with no payload and the loop goes on with its next
turn. -/
theorem C12_runScript_reports_failure_or_ok {E V : Type} (K : Constants) (env : Env E V)
    (hK : K.commandTagsDistinct) (fuel : Nat) (s : RInsideServer E)
    (code source tag rest : List Nat) (effects : List (List Nat)) (last : List Nat)
    (hcode : code.length < 2 ^ 64) (hlen : tag.length = 4)
    (hp : s.stream.pending = K.RIS_CMD_RUN :: (BinaryStream.string_bytes code ++ (tag ++ rest)))
    (hnorm : replace_all code (what "\r\n") (what "\n") = some source)
    (hseg : segments source = effects ++ [last]) :
    (∀ (done later : List (List Nat)) (seg m : List Nat) (s2 s3 : RInsideServer E)
        (e : Failure), effects = done ++ seg :: later →
      evalEffects K env done
        { s with stream := { s.stream with pending := rest }, can_send_reply := true }
        = ⟨.ok (), s2⟩ →
      parseEvalQ K env seg s2 = ⟨.error e, s3⟩ → e.std_what = some m →
      (s3.can_send_reply = true → 9 + m.length ≤ s3.stream.wroom →
        serve K env (fuel + 1) s = serve K env fuel (errorReplied K m s3)) ∧
      (s3.can_send_reply = false →
        serve K env (fuel + 1) s =
          some ⟨.error (.runtime_error (what "RInsideServer cannot send a reply at this time")),
            s3⟩)) ∧
    (∀ (m : List Nat) (s2 s3 : RInsideServer E) (e : Failure),
      evalEffects K env effects
        { s with stream := { s.stream with pending := rest }, can_send_reply := true }
        = ⟨.ok (), s2⟩ →
      parseEval K env last s2 = ⟨.error e, s3⟩ → e.std_what = some m →
      (s3.can_send_reply = true → 9 + m.length ≤ s3.stream.wroom →
        serve K env (fuel + 1) s = serve K env fuel (errorReplied K m s3)) ∧
      (s3.can_send_reply = false →
        serve K env (fuel + 1) s =
          some ⟨.error (.runtime_error (what "RInsideServer cannot send a reply at this time")),
            s3⟩)) ∧
    (∀ (v : V) (s2 s3 : RInsideServer E),
      evalEffects K env effects
        { s with stream := { s.stream with pending := rest }, can_send_reply := true }
        = ⟨.ok (), s2⟩ →
      parseEval K env last s2 = ⟨.ok v, s3⟩ → int32_of_bits (decodeLE tag) = 0 →
      s3.can_send_reply = true → 1 ≤ s3.stream.wroom →
      serve K env (fuel + 1) s = serve K env fuel (tagReplied K.RIS_REPLY_OK s3) ∧
      (tagReplied K.RIS_REPLY_OK s3).stream.written
        = s3.stream.written ++ [K.RIS_REPLY_OK % 256]) := by
  have hserve := serve_RUN K env hK fuel s code source tag rest effects last hcode hlen hp
    hnorm hseg
  refine ⟨?_, ?_, ?_⟩
  · intro pre later seg m s2 s3 e heff hdone hfail he
    subst heff
    exact serve_RUN_of_failure K env fuel s s3 e m _ hserve
      (evalInOrder_of_effect_failure K env _ pre later seg last _ s2 s3 e hdone hfail) he
  · intro m s2 s3 e hdone hfail he
    exact serve_RUN_of_failure K env fuel s s3 e m _ hserve
      (evalInOrder_of_last_failure K env _ effects last _ s2 s3 e hdone hfail) he
  · intro v s2 s3 hdone hlast htype hflag hw
    refine ⟨?_, rfl⟩
    rw [hserve, htype, evalInOrder_of_success K env effects last _ s2 s3 v hdone hlast,
      sendReply_of_ready _ s3 hflag hw]
    rfl

/-- Witness of C12: the example worker reads a RunScript command with the code
"x\r\n\r\nstop()\n\ny" and result type 0; the second of its three segments
fails. -/
theorem C12_runScript_reports_failure_or_ok_witness :
    serve K0 demoEnv (3 + 1)
        (freshServer (5 :: (BinaryStream.string_bytes (what "x\r\n\r\nstop()\n\ny")
          ++ ([0, 0, 0, 0] ++ [1])))) =
      serve K0 demoEnv 3
        (errorReplied K0 (what "Error evaluating: stop()")
          { stream := { pending := [1], written := [], wroom := 100, wcalls := 0,
                        failed := false },
            can_send_reply := true, R := (),
            calls := [.parseEvalQ (what "x"), .parseEvalQ (what "stop()")] }) :=
  ((C12_runScript_reports_failure_or_ok K0 demoEnv (by decide) 3
    (freshServer (5 :: (BinaryStream.string_bytes (what "x\r\n\r\nstop()\n\ny")
      ++ ([0, 0, 0, 0] ++ [1]))))
    (what "x\r\n\r\nstop()\n\ny") (what "x\n\nstop()\n\ny") [0, 0, 0, 0] [1]
    [what "x", what "stop()"] (what "y") (by decide) rfl rfl (by decide) (by decide)).1
    [what "x"] [] (what "stop()") (what "Error evaluating: stop()")
    { stream := { pending := [1], written := [], wroom := 100, wcalls := 0, failed := false },
      can_send_reply := true, R := (), calls := [.parseEvalQ (what "x")] }
    { stream := { pending := [1], written := [], wroom := 100, wcalls := 0, failed := false },
      can_send_reply := true, R := (),
      calls := [.parseEvalQ (what "x"), .parseEvalQ (what "stop()")] }
    (.runtime_error (what "Error evaluating: stop()")) rfl (by decide) (by decide) rfl).1
    rfl (by decide)

/-! ## The worker: a command's payload is read before it is answered -/

section WorkerFacts

variable {E V : Type}

end WorkerFacts

section WorkerFacts

variable {E V : Type}

end WorkerFacts

theorem what_crlf : what "\r\n" = [13, 10] := by decide

theorem what_lf : what "\n" = [10] := by decide

theorem crlf_to_lf_cons (c : Nat) (rest : List Nat) :
    crlf_to_lf (c :: rest) =
      if [13, 10] <+: c :: rest then 10 :: crlf_to_lf (rest.drop 1)
      else c :: crlf_to_lf rest := by
  by_cases hc : c = 13
  · subst hc
    cases rest with
    | nil => simp [crlf_to_lf]
    | cons c2 rest2 =>
      by_cases hc2 : c2 = 10
      · subst hc2
        simp [crlf_to_lf]
      · have hne : ¬ [13, 10] <+: 13 :: c2 :: rest2 := by
          simp [List.cons_prefix_cons, Ne.symm hc2]
        rw [if_neg hne, crlf_to_lf]
        intro r h1 h2
        simp_all
  · have hne : ¬ [13, 10] <+: c :: rest := by
      simp [List.cons_prefix_cons, Ne.symm hc]
    rw [if_neg hne, crlf_to_lf]
    intro r h1 h2
    simp_all

theorem crlf_to_lf_of_find_none (suf : List Nat) (i : Nat)
    (h : find_from [13, 10] suf i = none) : crlf_to_lf suf = suf := by
  induction suf generalizing i with
  | nil => simp [crlf_to_lf]
  | cons c cs ih =>
    simp only [find_from] at h
    split at h
    · cases h
    · rename_i hpre
      rw [crlf_to_lf_cons, if_neg hpre, ih (i + 1) h]

theorem crlf_to_lf_of_find_some (suf : List Nat) (i j : Nat)
    (h : find_from [13, 10] suf i = some j) :
    crlf_to_lf suf = suf.take (j - i) ++ 10 :: crlf_to_lf (suf.drop (j - i + 2)) := by
  induction suf generalizing i with
  | nil =>
    simp [find_from] at h
  | cons c cs ih =>
    simp only [find_from] at h
    split at h
    · rename_i hpre
      simp only [Option.some.injEq] at h
      subst h
      rw [crlf_to_lf_cons, if_pos hpre]
      simp
    · rename_i hpre
      have hij := (find_from_some _ _ _ _ h).1
      rw [crlf_to_lf_cons, if_neg hpre, ih (i + 1) h]
      have e : j - i = (j - (i + 1)) + 1 := by omega
      rw [e]
      simp

theorem replace_all_loop_crlf (fuel : Nat) (str : List Nat) (start : Nat)
    (hstart : start ≤ str.length) (hfuel : str.length - start < fuel) :
    replace_all_loop [13, 10] [10] fuel str start =
      some (str.take start ++ crlf_to_lf (str.drop start)) := by
  induction fuel generalizing str start with
  | zero => omega
  | succ fuel ih =>
    have hfind : find str [13, 10] start = find_from [13, 10] (str.drop start) start := by
      simp [find, hstart]
    cases h : find_from [13, 10] (str.drop start) start with
    | none =>
      simp only [replace_all_loop, hfind, h]
      rw [crlf_to_lf_of_find_none _ start h, List.take_append_drop]
    | some j =>
      obtain ⟨hij, hj, hpre, _⟩ := find_from_some _ _ _ _ h
      have hj2 : j + 2 ≤ str.length := by
        have := hpre.length_le
        simp only [List.length_cons, List.length_nil, List.length_drop] at this hj
        omega
      have hA : (str.take j).length = j := by
        rw [List.length_take]; omega
      have hA1 : (str.take j ++ [10]).length = j + 1 := by
        rw [List.length_append, hA]; rfl
      simp only [replace_all_loop, hfind, h, List.length_cons, List.length_nil]
      rw [ih (str.take j ++ [10] ++ str.drop (j + 2)) (j + 1)
        (by simp only [List.length_append, hA, List.length_drop, List.length_cons,
              List.length_nil]; omega)
        (by simp only [List.length_append, hA, List.length_drop, List.length_cons,
              List.length_nil]; omega)]
      rw [List.take_left' hA1, List.drop_left' hA1, crlf_to_lf_of_find_some _ start j h]
      have e : start + (j - start + 2) = j + 2 := by omega
      have e2 : str.take j = str.take start ++ (str.drop start).take (j - start) := by
        have e3 : j = start + (j - start) := by omega
        conv_lhs => rw [e3]
        rw [List.take_add]
      rw [List.drop_drop, e, e2]
      simp

theorem replace_all_crlf (str : List Nat) :
    replace_all str (what "\r\n") (what "\n") = some (crlf_to_lf str) := by
  rw [what_crlf, what_lf, replace_all,
    replace_all_loop_crlf _ str 0 (Nat.zero_le _) (by omega)]
  simp

theorem crlf_to_lf_prefix_lf (l : List Nat) :
    [10] <+: crlf_to_lf l ↔ ([10] <+: l ∨ [13, 10] <+: l) := by
  cases l with
  | nil => simp [crlf_to_lf]
  | cons c rest =>
    rw [crlf_to_lf_cons]
    by_cases hp : [13, 10] <+: c :: rest
    · rw [if_pos hp]
      simp [hp]
    · rw [if_neg hp]
      simp only [List.cons_prefix_cons, List.nil_prefix, and_true] at hp ⊢
      simp [hp]

theorem crlf_to_lf_prefix (l : List Nat) :
    [13, 10] <+: crlf_to_lf l ↔ [13, 13, 10] <+: l := by
  cases l with
  | nil => simp [crlf_to_lf]
  | cons c rest =>
    rw [crlf_to_lf_cons]
    by_cases hp : [13, 10] <+: c :: rest
    · rw [if_pos hp]
      cases rest with
      | nil => simp at hp
      | cons d r =>
        simp only [List.cons_prefix_cons, List.nil_prefix, and_true] at hp ⊢
        omega
    · rw [if_neg hp]
      have h1 := crlf_to_lf_prefix_lf rest
      simp only [List.cons_prefix_cons, List.nil_prefix, and_true] at hp ⊢
      rw [h1]
      tauto

theorem crlf_to_lf_infix (n : Nat) (l : List Nat) (hn : l.length ≤ n) :
    [13, 10] <:+: crlf_to_lf l ↔ [13, 13, 10] <:+: l := by
  induction n generalizing l with
  | zero =>
    have hl : l = [] := List.length_eq_zero.1 (by omega)
    subst hl
    simp [crlf_to_lf]
  | succ n ih =>
    cases l with
    | nil => simp [crlf_to_lf]
    | cons c rest =>
      simp only [List.length_cons] at hn
      by_cases hp : [13, 10] <+: c :: rest
      · rw [crlf_to_lf_cons, if_pos hp]
        cases rest with
        | nil => simp at hp
        | cons d r =>
          simp only [List.length_cons] at hn
          simp only [List.cons_prefix_cons, List.nil_prefix, and_true] at hp
          obtain ⟨rfl, rfl⟩ := hp
          simp only [List.drop_succ_cons, List.drop_zero]
          rw [List.infix_cons_iff, List.infix_cons_iff, List.infix_cons_iff,
            ih r (by omega)]
          simp [List.cons_prefix_cons]
      · have hpre := crlf_to_lf_prefix (c :: rest)
        rw [crlf_to_lf_cons, if_neg hp] at hpre ⊢
        rw [List.infix_cons_iff, List.infix_cons_iff, hpre, ih rest (by omega)]

section WorkerFacts

variable {E V : Type}

theorem cmd_RUN_of_code (K : Constants) (env : Env E V) (s : RInsideServer E)
    (code tag rest : List Nat) (hcode : code.length < 2 ^ 64) (hlen : tag.length = 4)
    (hp : s.stream.pending = BinaryStream.string_bytes code ++ (tag ++ rest)) :
    cmd_RUN K env s =
      match runSource K env (crlf_to_lf code) (int32_of_bits (decodeLE tag))
          { s with stream := { s.stream with pending := rest } } with
      | none => none
      | some block => some (CMD_CATCH K block) :=
  cmd_RUN_of_payload K env s code (crlf_to_lf code) tag rest hcode hlen hp
    (replace_all_crlf code)

end WorkerFacts

/-- C21, as stated, fails: for the script source "\r\r\n" the find of
`replace_all` hits the Windows line ending at index 1, replaces it by "\n" and
goes on searching at index 2, behind the replacement; the string left is
"\r\n", which is a Windows line ending.  The example worker that receives this
source in a RunScript command evaluates the line "\r\n". -/
theorem C21_counterexample_carriage_return_before_crlf :
    replace_all (what "\r\r\n") (what "\r\n") (what "\n") = some (what "\r\n") ∧
    what "\r\n" <:+: what "\r\n" ∧
    (cmd_RUN K0 demoEnv
        (freshServer (BinaryStream.string_bytes (what "\r\r\n") ++ [0, 0, 0, 0]))).map
        (fun o => o.state.calls) = some [.parseEval (what "\r\n")] := by
  refine ⟨by decide, ⟨[], [], rfl⟩, by decide⟩

/-- C21 (amended): for every script source `code`, the line-ending normalisation
`replace_all(code, "\r\n", "\n")` returns, and the string it leaves is `code`
with every Windows line ending met in one pass from left to right replaced by
"\n" (`crlf_to_lf`).  That string contains a Windows line ending exactly when
`code` contains "\r\r\n", a carriage return directly in front of a Windows line
ending; so for every `code` without "\r\r\n" the normalised string contains no
"\r\n".  The RunScript branch of `run()` evaluates this string. -/
theorem C21_normalisation_is_one_pass {E V : Type} (K : Constants) (env : Env E V)
    (code : List Nat) :
    replace_all code (what "\r\n") (what "\n") = some (crlf_to_lf code) ∧
    (what "\r\n" <:+: crlf_to_lf code ↔ what "\r\r\n" <:+: code) ∧
    (¬ what "\r\r\n" <:+: code → ¬ what "\r\n" <:+: crlf_to_lf code) ∧
    (∀ (s : RInsideServer E) (tag rest : List Nat), code.length < 2 ^ 64 → tag.length = 4 →
      s.stream.pending = BinaryStream.string_bytes code ++ (tag ++ rest) →
      cmd_RUN K env s =
        match runSource K env (crlf_to_lf code) (int32_of_bits (decodeLE tag))
            { s with stream := { s.stream with pending := rest } } with
        | none => none
        | some block => some (CMD_CATCH K block)) := by
  have e3 : what "\r\r\n" = [13, 13, 10] := by decide
  have hiff := crlf_to_lf_infix code.length code (le_refl _)
  refine ⟨replace_all_crlf code, by rw [what_crlf, e3]; exact hiff,
    fun h1 h2 => h1 (by rw [what_crlf, e3] at *; exact hiff.1 h2), ?_⟩
  intro s tag rest hcode hlen hp
  exact cmd_RUN_of_code K env s code tag rest hcode hlen hp

/-- Witness of C21: the source "a\r\nb\r\n" has no carriage return in front of a
Windows line ending; it is normalised to "a\nb\n". -/
theorem C21_normalisation_is_one_pass_witness :
    replace_all (what "a\r\nb\r\n") (what "\r\n") (what "\n") = some (what "a\nb\n") ∧
    ¬ what "\r\n" <:+: crlf_to_lf (what "a\r\nb\r\n") :=
  ⟨(C21_normalisation_is_one_pass K0 demoEnv (what "a\r\nb\r\n")).1.trans (by decide),
    (C21_normalisation_is_one_pass K0 demoEnv (what "a\r\nb\r\n")).2.2.1 (by decide)⟩

/-! ## The controller: runScript leaves sending disabled -/

theorem writeCommand_ok_lowers_flag (command : Nat) (s s1 : RInsideClient)
    (hw : writeCommand command s = ⟨.ok (), s1⟩) : s1.can_send_command = false := by
  unfold writeCommand at hw
  split at hw
  · cases hw
  · split at hw
    · cases hw
    · rcases hc : s.stream.write_char command with ⟨_ | u, st⟩ <;> rw [hc] at hw
      · cases hw
      · simp only [Outcome.mk.injEq, true_and] at hw
        rw [← hw]

theorem runScript_of_sent (K : Constants) (callbacks : Nat → Option Handler)
    (code : List Nat) (t : Int) (s s1 : RInsideClient) (o : Outcome RInsideClient Unit)
    (hw : writeCommand K.RIS_CMD_RUN s = ⟨.ok (), s1⟩)
    (ho : runScript K callbacks code t s = some o) : o.state.can_send_command = false := by
  have hflag := writeCommand_ok_lowers_flag _ s s1 hw
  unfold runScript at ho
  rw [hw] at ho
  simp only [] at ho
  rcases h2 : s1.stream.write_string code with ⟨_ | u, st2⟩ <;> rw [h2] at ho
  · simp only [Option.some.injEq] at ho
    rw [← ho]
    exact hflag
  · simp only [] at ho
    rcases h3 : st2.write_int32 t with ⟨_ | u, st3⟩ <;> rw [h3] at ho
    · simp only [Option.some.injEq] at ho
      rw [← ho]
      exact hflag
    · simp only [] at ho
      exact (runScript_loop_cases K callbacks t _ _ o ho).1.trans hflag

/-- C22: let the `writeCommand(RIS_CMD_RUN)` that `runScript` starts with succeed.
Then `runScript` comes to an end, and however it ends, returning normally
after a valid Ok or Value reply or throwing (a failed write of the code or of
the result type, a failed read, a handler that is missing or throws, an
unexpected reply), `can_send_command` is false afterwards: `runScript` itself
never makes the session ready for the next command, and a `writeCommand`
issued right after it is refused with a `std::runtime_error`, leaving the
session as it is. -/
theorem C22_runScript_leaves_sending_disabled (K : Constants)
    (callbacks : Nat → Option Handler) (code : List Nat) (t : Int) (s s1 : RInsideClient)
    (hw : writeCommand K.RIS_CMD_RUN s = ⟨.ok (), s1⟩) :
    ∃ o, runScript K callbacks code t s = some o ∧ o.state.can_send_command = false ∧
      ∀ command : Nat,
        (∃ msg, (writeCommand command o.state).result = .error (.runtime_error msg)) ∧
          (writeCommand command o.state).state = o.state := by
  obtain ⟨o, ho⟩ := runScript_total K callbacks code t s
  have hflag := runScript_of_sent K callbacks code t s s1 o hw ho
  exact ⟨o, ho, hflag, fun command => writeCommand_of_refusing command o.state (Or.inr hflag)⟩

/-- Witness of C22: a fresh session runs the script "1" with no value requested and
the worker answers Ok. -/
theorem C22_runScript_leaves_sending_disabled_witness :
    (runScript K0 exampleCallbacks (what "1") 0 (freshClient [11])).map
        (fun o => (o.result, o.state.can_send_command)) = some (.ok (), false) ∧
    ∃ o, runScript K0 exampleCallbacks (what "1") 0 (freshClient [11]) = some o ∧
      o.state.can_send_command = false ∧
      ∀ command : Nat,
        (∃ msg, (writeCommand command o.state).result = .error (.runtime_error msg)) ∧
          (writeCommand command o.state).state = o.state :=
  ⟨by decide,
    C22_runScript_leaves_sending_disabled K0 exampleCallbacks (what "1") 0 (freshClient [11])
      { freshClient [11] with
        stream := { pending := [11], written := [1, 0, 73, 82, 5], wroom := 99, wcalls := 2,
                    failed := false },
        can_send_command := false }
      (by decide)⟩

end RInside
